import Mathlib

/-!
# Encoder decoding and PID velocity control: a verification development

Shallow embedding of three firmware components:

* `RotaryEncoder` (polled quadrature decoder, `RotaryEncoder.cpp`),
* `KY040` (interrupt-capable decoder with debounced events, `KY040rotary.cpp`),
* the PID velocity controller (`diff_controller.h`).

Conventions of the embedding.

* Hardware reads (`digitalRead`, `millis`, `readEncoder`) are explicit arguments
  of the function that performs them.
* Signed C integers (`int`, `long`) are mathematical integers; every statement
  about them is therefore a statement about runs in which no signed overflow
  occurs (signed overflow is undefined in C++).
* `unsigned long` values are natural numbers and subtraction on them wraps
  modulo `2 ^ 32`, as on the Arduino targets.
* `>>` on a signed value is the arithmetic shift (floor division by a power of
  two), `<<` is multiplication by a power of two, `/` truncates toward zero.
-/

/-! ## RotaryEncoder.cpp -/

/-- Latch modes of the polled decoder (`RotaryEncoder::LatchMode`). -/
inductive LatchMode where
  | FOUR3
  | FOUR0
  | TWO03
  deriving DecidableEq, Repr

/-- Result type of `getDirection` (`RotaryEncoder::Direction`). -/
inductive Direction where
  | NOROTATION
  | CLOCKWISE
  | COUNTERCLOCKWISE
  deriving DecidableEq, Repr

/-- Input state at position 0. -/
def LATCH0 : Nat := 0

/-- Input state at position 3. -/
def LATCH3 : Nat := 3

/-- Step table indexed by `thisState | (oldState << 2)`. -/
def KNOBDIR : List Int :=
  [0, -1, 1, 0,
   1, 0, 0, -1,
   -1, 0, 0, 1,
   0, 1, -1, 0]

/-- Member variables of a `RotaryEncoder` object. -/
structure RotaryEncoder where
  _pin1 : Nat
  _pin2 : Nat
  _mode : LatchMode
  _oldState : Nat
  _positionInt : Int
  _position : Int
  _lastPosition : Int
  _positionTime : Nat
  _lastPositionTime : Nat
  _lastVelocity : Int
  _lastAcceleration : Int
  _lastVelocityTime : Nat
  _lastAccelerationTime : Nat
  deriving DecidableEq, Repr

namespace RotaryEncoder

/-- Constructor. `mem` is the storage the object is built in: the members the
constructor does not assign (the four timestamps) keep whatever `mem` holds.
`sig1`, `sig2` are the values returned by the two `digitalRead` calls. -/
def construct (mem : RotaryEncoder) (pin1 pin2 : Nat) (mode : LatchMode)
    (sig1 sig2 : Nat) : RotaryEncoder :=
  { mem with
    _pin1 := pin1
    _pin2 := pin2
    _mode := mode
    _oldState := sig1 ||| (sig2 <<< 1)
    _positionInt := 0
    _position := 0
    _lastPosition := 0
    _lastVelocity := 0
    _lastAcceleration := 0 }

/-- Accessor `getPosition`. -/
def getPosition (s : RotaryEncoder) : Int :=
  s._position

/-- Method `getDirection`: the returned direction and the updated object. -/
def getDirection (s : RotaryEncoder) : Direction × RotaryEncoder :=
  if s._lastPosition > s._position then
    (Direction.COUNTERCLOCKWISE, { s with _lastPosition := s._position })
  else if s._lastPosition < s._position then
    (Direction.CLOCKWISE, { s with _lastPosition := s._position })
  else
    (Direction.NOROTATION, { s with _lastPosition := s._position })

/-- Method `setPosition`. -/
def setPosition (s : RotaryEncoder) (newPosition : Int) : RotaryEncoder :=
  match s._mode with
  | LatchMode.FOUR3 | LatchMode.FOUR0 =>
    { s with
      _positionInt := Int.lor (newPosition <<< (2 : Int)) (Int.land s._positionInt 0x03)
      _position := newPosition
      _lastPosition := newPosition }
  | LatchMode.TWO03 =>
    { s with
      _positionInt := Int.lor (newPosition <<< (1 : Int)) (Int.land s._positionInt 0x01)
      _position := newPosition
      _lastPosition := newPosition }

/-- Method `tick`. `sig1`, `sig2` are the two `digitalRead` results and `millis`
the clock value a latch would record. -/
def tick (s : RotaryEncoder) (sig1 sig2 : Nat) (millis : Nat) : RotaryEncoder :=
  let thisState := sig1 ||| (sig2 <<< 1)
  if s._oldState ≠ thisState then
    let s1 : RotaryEncoder :=
      { s with
        _positionInt := s._positionInt + KNOBDIR.getD (thisState ||| (s._oldState <<< 2)) 0
        _oldState := thisState }
    match s1._mode with
    | LatchMode.FOUR3 =>
      if thisState = LATCH3 then
        { s1 with
          _position := s1._positionInt >>> (2 : Nat)
          _lastPositionTime := s1._positionTime
          _positionTime := millis }
      else s1
    | LatchMode.FOUR0 =>
      if thisState = LATCH0 then
        { s1 with
          _position := s1._positionInt >>> (2 : Nat)
          _lastPositionTime := s1._positionTime
          _positionTime := millis }
      else s1
    | LatchMode.TWO03 =>
      if thisState = LATCH0 ∨ thisState = LATCH3 then
        { s1 with
          _position := s1._positionInt >>> (1 : Nat)
          _lastPositionTime := s1._positionTime
          _positionTime := millis }
      else s1
  else s

end RotaryEncoder

/-! ## KY040rotary.cpp -/

/-- Debounce window of the switch. -/
def KY040_SW_DEBOUNCE : Nat := 50

/-- Debounce window of the rotation direction. -/
def KY040_DT_DEBOUNCE : Nat := 160

/-- Subtraction of two `unsigned long` values (32 bits wide). -/
def ulongSub (a b : Nat) : Nat :=
  (a % 2 ^ 32 + (2 ^ 32 - b % 2 ^ 32)) % 2 ^ 32

/-- Member variables of a `KY040` object, callbacks apart. `Vel` and `Acc` are
`none` once a division by a zero elapsed time has produced them. -/
structure KY040 where
  pinClk : Nat
  pinDt : Nat
  pinSw : Nat
  basicMode : Bool
  swState : Nat
  swLastTime : Nat
  swDebounce : Bool
  dtState : Nat
  dtLastTime : Nat
  dtPreviousPos : Int
  dtDebounce : Bool
  signalAB : Nat
  Time : Int
  Pos : Int
  Vel : Option Int
  Acc : Option Int
  deriving DecidableEq, Repr

/-- Callback invocations a `Process` call can make. -/
inductive KY040Event where
  | click
  | right
  | left
  deriving DecidableEq, Repr

/-- Registered callbacks (`_OnCbClick`, `_OnCbRight`, `_OnCbLeft`); `none` is a
null function pointer, `some f` a handler acting on the object. -/
structure KY040Callbacks where
  _OnCbClick : Option (KY040 → KY040)
  _OnCbRight : Option (KY040 → KY040)
  _OnCbLeft : Option (KY040 → KY040)

namespace KY040

/-- Constructor. -/
def construct (pinClk pinDt pinSw : Nat) : KY040 :=
  { pinClk := pinClk
    pinDt := pinDt
    pinSw := pinSw
    basicMode := true
    swState := 0
    swLastTime := 0
    swDebounce := false
    dtState := 0
    dtLastTime := 0
    dtPreviousPos := 0
    dtDebounce := false
    signalAB := 0
    Time := 0
    Pos := 0
    Vel := some 0
    Acc := some 0 }

/-- Integer quotient as the decoder computes it: undefined (`none`) when the
divisor is zero or the dividend is already undefined. -/
def quot (a : Option Int) (b : Int) : Option Int :=
  match a with
  | none => none
  | some x => if b = 0 then none else some (Int.tdiv x b)

/-- Method `DecodeSignals`. `signalA`, `signalB` are the `digitalRead` results
of `pinClk` and `pinDt`, `millis` the clock. -/
def DecodeSignals (k : KY040) (signalA signalB : Nat) (millis : Nat) : KY040 :=
  let currentState := (signalB <<< 1) ||| signalA
  let transition := (k.signalAB <<< 2) ||| currentState
  let lastPos := k.Pos
  let k1 : KY040 :=
    if transition = 0b0001 ∨ transition = 0b0111 ∨ transition = 0b1110 ∨ transition = 0b1000 then
      { k with Pos := k.Pos + 1, dtState := 1 }
    else if transition = 0b0010 ∨ transition = 0b1011 ∨ transition = 0b1101 ∨ transition = 0b0100 then
      { k with Pos := k.Pos - 1, dtState := 2 }
    else k
  let k2 : KY040 := { k1 with signalAB := currentState }
  let lastTime := k2.Time
  let k3 : KY040 := { k2 with Time := ((millis / 1000 : Nat) : Int) }
  let lastVel := k3.Vel
  let k4 : KY040 := { k3 with Vel := quot (some (k3.Pos - lastPos)) (k3.Time - lastTime) }
  { k4 with
    Acc := quot (match k4.Vel, lastVel with
                 | some v, some l => some (v - l)
                 | _, _ => none) (k4.Time - lastTime) }

/-- Method `HandleSwitchInterrupt`. -/
def HandleSwitchInterrupt (k : KY040) : KY040 :=
  { k with swState := 1 }

/-- Method `HandleRotateInterrupt`. -/
def HandleRotateInterrupt (k : KY040) (signalA signalB : Nat) (millis : Nat) : KY040 :=
  k.DecodeSignals signalA signalB millis

/-- Calling a possibly null callback: the object afterwards and the recorded
invocation. -/
def invoke (cb : Option (KY040 → KY040)) (e : KY040Event) (k : KY040) : KY040 × List KY040Event :=
  match cb with
  | none => (k, [])
  | some f => (f k, [e])

/-- Method `Process`. `t` is the argument, `signalA`, `signalB`, `sw` are what
`digitalRead` returns for `pinClk`, `pinDt`, `pinSw` during the call (`sw = 0`
is `LOW`), `millis` is the clock. The result is the object afterwards and the
callbacks invoked, in order. -/
def Process (cb : KY040Callbacks) (k : KY040) (t : Nat) (signalA signalB sw : Nat)
    (millis : Nat) : KY040 × List KY040Event :=
  let k1 : KY040 :=
    if k.basicMode then
      let d := k.DecodeSignals signalA signalB millis
      if sw = 0 then { d with swState := 1 } else d
    else k
  let k2 : KY040 :=
    if k1.swState ≠ 0 ∧ k1.swDebounce = false then
      { k1 with swLastTime := t % 1000, swDebounce := true }
    else k1
  let r3 : KY040 × List KY040Event :=
    if k2.swDebounce = true ∧ ulongSub (t % 1000) k2.swLastTime > KY040_SW_DEBOUNCE then
      let r := if sw = 1 then invoke cb._OnCbClick KY040Event.click k2 else (k2, [])
      ({ r.1 with swState := 0, swDebounce := false }, r.2)
    else (k2, [])
  let k4 : KY040 :=
    if r3.1.dtState ≠ 0 ∧ r3.1.dtDebounce = false then
      { r3.1 with dtLastTime := t % 1000, dtDebounce := true }
    else r3.1
  if k4.dtDebounce = true ∧ ulongSub (t % 1000) k4.dtLastTime > KY040_DT_DEBOUNCE then
    let rR := if k4.dtState = 1 then invoke cb._OnCbRight KY040Event.right k4 else (k4, [])
    let rL := if rR.1.dtState = 2 then invoke cb._OnCbLeft KY040Event.left rR.1 else (rR.1, [])
    ({ rL.1 with dtState := 0, dtDebounce := false }, r3.2 ++ rR.2 ++ rL.2)
  else (k4, r3.2)

end KY040

/-! ## diff_controller.h -/

/-- PID setpoint info for a motor. The `double` target is a rational number
(every finite `double` is one) and arithmetic on it is exact. -/
structure SetPointInfo where
  TargetStepsPerTimeFrame : ℚ
  Position : Int
  PrevEnc : Int
  PrevInputSpeed : Int
  ITerm : Int
  OutputSpeed : Int
  deriving DecidableEq, Repr

/-- The tunable constants: the global gains `Kp`, `Kd`, `Ki`, `Ko` and the
output bound `MAX_PWM`, which the header uses and leaves to the sketch to
define. -/
structure PIDParams where
  Kp : Int
  Kd : Int
  Ki : Int
  Ko : Int
  MAX_PWM : Int
  deriving DecidableEq, Repr

/-- Motor index `LEFT`. -/
def LEFT : Nat := 1

/-- Motor index `RIGHT`. -/
def RIGHT : Nat := 0

/-- The global controller state: `leftPID`, `rightPID` and `moving`. -/
structure PIDState where
  leftPID : SetPointInfo
  rightPID : SetPointInfo
  moving : Nat
  deriving DecidableEq, Repr

/-- Conversion of a `double` to `long`: truncation toward zero. -/
def toLong (q : ℚ) : Int :=
  Int.tdiv q.num (q.den : Int)

/-- Function `resetPID`; `readEncoder` is the collaborator of that name. -/
def resetPID (readEncoder : Nat → Int) (st : PIDState) : PIDState :=
  { st with
    leftPID :=
      { TargetStepsPerTimeFrame := 0
        Position := readEncoder LEFT
        PrevEnc := readEncoder LEFT
        OutputSpeed := 0
        PrevInputSpeed := 0
        ITerm := 0 }
    rightPID :=
      { TargetStepsPerTimeFrame := 0
        Position := readEncoder RIGHT
        PrevEnc := readEncoder RIGHT
        OutputSpeed := 0
        PrevInputSpeed := 0
        ITerm := 0 } }

/-- Function `doPID`. -/
def doPID (g : PIDParams) (p : SetPointInfo) : SetPointInfo :=
  let previousOutputSpeed : Int := p.Position - p.PrevEnc
  let Perror : Int := toLong (p.TargetStepsPerTimeFrame - (previousOutputSpeed : ℚ))
  let OutputSpeed0 : Int :=
    Int.tdiv (g.Kp * Perror - g.Kd * (previousOutputSpeed - p.PrevInputSpeed) + p.ITerm) g.Ko
  let p1 : SetPointInfo := { p with PrevEnc := p.Position }
  let OutputSpeed1 : Int := OutputSpeed0 + p1.OutputSpeed
  let r : Int × SetPointInfo :=
    if OutputSpeed1 ≥ g.MAX_PWM then (g.MAX_PWM, p1)
    else if OutputSpeed1 ≤ -g.MAX_PWM then (-g.MAX_PWM, p1)
    else (OutputSpeed1, { p1 with ITerm := p1.ITerm + g.Ki * Perror })
  { r.2 with OutputSpeed := r.1, PrevInputSpeed := previousOutputSpeed }

/-- Function `updatePID`. The second component is the `setMotorSpeeds(left, right)`
call made, if any. -/
def updatePID (g : PIDParams) (readEncoder : Nat → Int) (st : PIDState) :
    PIDState × Option (Int × Int) :=
  let st1 : PIDState :=
    { st with
      leftPID := { st.leftPID with Position := readEncoder LEFT }
      rightPID := { st.rightPID with Position := readEncoder RIGHT } }
  if st1.moving = 0 then
    if st1.leftPID.PrevInputSpeed ≠ 0 ∨ st1.rightPID.PrevInputSpeed ≠ 0 then
      (resetPID readEncoder st1, none)
    else (st1, none)
  else
    let st2 : PIDState := { st1 with rightPID := doPID g st1.rightPID }
    let st3 : PIDState := { st2 with leftPID := doPID g st2.leftPID }
    (st3, some (st3.leftPID.OutputSpeed, st3.rightPID.OutputSpeed))

/-! ## Scenario descriptions used by the statements -/

/-- The unclamped sum `doPID` forms: the increment plus the previous output. -/
def unclampedSum (g : PIDParams) (p : SetPointInfo) : Int :=
  let m : Int := p.Position - p.PrevEnc
  let e : Int := toLong (p.TargetStepsPerTimeFrame - (m : ℚ))
  p.OutputSpeed + Int.tdiv (g.Kp * e - g.Kd * (m - p.PrevInputSpeed) + p.ITerm) g.Ko

/-- One control tick of a single motor. The input is the target the caller has
set for this frame and the encoder reading `updatePID` stores in `Position`;
then `doPID` runs. -/
def controlTick (g : PIDParams) (p : SetPointInfo) (i : ℚ × Int) : SetPointInfo :=
  doPID g { p with TargetStepsPerTimeFrame := i.1, Position := i.2 }

/-- The motor states on which `doPID` is entered at each tick of a run. -/
def statesBefore (g : PIDParams) : SetPointInfo → List (ℚ × Int) → List SetPointInfo
  | _, [] => []
  | p, i :: is =>
    { p with TargetStepsPerTimeFrame := i.1, Position := i.2 } ::
      statesBefore g (controlTick g p i) is

/-- A run of control ticks. -/
def controlTicks (g : PIDParams) (p : SetPointInfo) (inputs : List (ℚ × Int)) : SetPointInfo :=
  inputs.foldl (controlTick g) p

/-- The parameter values the header initialises, with `MAX_PWM = 255`. -/
def defaultParams : PIDParams :=
  { Kp := 20, Kd := 12, Ki := 0, Ko := 50, MAX_PWM := 255 }

/-- A zero-filled object, as static storage is before construction. -/
def RotaryEncoder.zeroed : RotaryEncoder :=
  { _pin1 := 0, _pin2 := 0, _mode := LatchMode.FOUR3, _oldState := 0, _positionInt := 0,
    _position := 0, _lastPosition := 0, _positionTime := 0, _lastPositionTime := 0,
    _lastVelocity := 0, _lastAcceleration := 0, _lastVelocityTime := 0,
    _lastAccelerationTime := 0 }

/-- Parameters with a non-zero integral gain, for the examples. -/
def integralParams : PIDParams :=
  { Kp := 20, Kd := 12, Ki := 3, Ko := 50, MAX_PWM := 255 }

/-- Next pin state in the counting-up order 3, 1, 0, 2, 3. -/
def stepUp : Nat → Nat
  | 3 => 1
  | 1 => 0
  | 0 => 2
  | _ => 3

/-- Next pin state in the counting-down order 3, 2, 0, 1, 3. -/
def stepDown : Nat → Nat
  | 3 => 2
  | 2 => 0
  | 0 => 1
  | _ => 3

/-- The samples `(sig1, sig2, millis)` seen by successive ticks when the pins
leave state `c` and advance one state per tick along `next`; the list gives
the clock value of each tick. -/
def rotate (next : Nat → Nat) : Nat → List Nat → List (Nat × Nat × Nat)
  | _, [] => []
  | c, t :: ts => (next c % 2, next c / 2, t) :: rotate next (next c) ts

/-- A run of `tick` calls, one per sample `(sig1, sig2, millis)`. -/
def RotaryEncoder.ticks (s : RotaryEncoder) (samples : List (Nat × Nat × Nat)) : RotaryEncoder :=
  samples.foldl (fun r x => r.tick x.1 x.2.1 x.2.2) s

/-- The pin states at which a mode latches. -/
def isLatchState : LatchMode → Nat → Prop
  | LatchMode.FOUR3, c => c = LATCH3
  | LatchMode.FOUR0, c => c = LATCH0
  | LatchMode.TWO03, c => c = LATCH0 ∨ c = LATCH3

instance (mode : LatchMode) (c : Nat) : Decidable (isLatchState mode c) := by
  cases mode <;> unfold isLatchState <;> infer_instance

/-- Raw steps per detent: the shift `tick` and `setPosition` use. -/
def latchShift : LatchMode → Nat
  | LatchMode.FOUR3 => 2
  | LatchMode.FOUR0 => 2
  | LatchMode.TWO03 => 1

/-- Number of single-bit transitions in one detent step. -/
def ticksPerDetent (mode : LatchMode) : Nat :=
  2 ^ latchShift mode

/-- Position of a pin state in the counting-up cycle that starts at 3. -/
def upPhase : Nat → Nat
  | 3 => 0
  | 1 => 1
  | 0 => 2
  | _ => 3

/-- At a latch state the visible position is the shifted raw accumulator. -/
def latchInv (s : RotaryEncoder) : Prop :=
  isLatchState s._mode s._oldState → s._position = s._positionInt >>> latchShift s._mode

/-- What one tick along a direction does: `δ` is the raw step, `k` the phase
advance. -/
def tickAlong (next : Nat → Nat) (δ : Int) (k : Nat) : Prop :=
  ∀ (s : RotaryEncoder) (t : Nat), s._oldState < 4 →
    (s.tick (next s._oldState % 2) (next s._oldState / 2) t)._positionInt = s._positionInt + δ ∧
    (s.tick (next s._oldState % 2) (next s._oldState / 2) t)._oldState = next s._oldState ∧
    next s._oldState < 4 ∧
    upPhase (next s._oldState) = (upPhase s._oldState + k) % 4 ∧
    (s.tick (next s._oldState % 2) (next s._oldState / 2) t)._mode = s._mode ∧
    latchInv (s.tick (next s._oldState % 2) (next s._oldState / 2) t)

/-- Mask of the sub-detent bits of the raw accumulator in `setPosition`. -/
def lowMask : LatchMode → Int
  | LatchMode.FOUR3 => 0x03
  | LatchMode.FOUR0 => 0x03
  | LatchMode.TWO03 => 0x01

/-- A run of `updatePID` calls, one per snapshot of the two encoders, with
nothing else touching the controller in between. -/
def updatePIDs (g : PIDParams) (st : PIDState) (reads : List (Nat → Int)) : PIDState :=
  reads.foldl (fun r e => (updatePID g e r).1) st

/-- The caller's start command: `moving` is set and both targets are written. -/
def startMoving (st : PIDState) (targetLeft targetRight : Int) : PIDState :=
  { st with
    moving := 1
    leftPID := { st.leftPID with TargetStepsPerTimeFrame := (targetLeft : ℚ) }
    rightPID := { st.rightPID with TargetStepsPerTimeFrame := (targetRight : ℚ) } }

/-- The limiting `doPID` applies to the summed output. -/
def clampPWM (g : PIDParams) (x : Int) : Int :=
  if x ≥ g.MAX_PWM then g.MAX_PWM
  else if x ≤ -g.MAX_PWM then -g.MAX_PWM
  else x

/-- A motor state freshly reset at encoder reading `enc`, then given a target
and a new reading. -/
def cleanStart (target : Int) (enc reading : Int) : SetPointInfo :=
  { TargetStepsPerTimeFrame := (target : ℚ)
    Position := reading
    PrevEnc := enc
    PrevInputSpeed := 0
    ITerm := 0
    OutputSpeed := 0 }

/-- Example: both wheels still turning (5 ticks in the last frame) when the
base is told to stop. -/
def coastingState : PIDState :=
  { leftPID :=
      { TargetStepsPerTimeFrame := 10, Position := 100, PrevEnc := 95, PrevInputSpeed := 5,
        ITerm := 0, OutputSpeed := 60 }
    rightPID :=
      { TargetStepsPerTimeFrame := 10, Position := 100, PrevEnc := 95, PrevInputSpeed := 5,
        ITerm := 0, OutputSpeed := 60 }
    moving := 0 }

/-- Example: both wheels stalled (no ticks in the last frame) with the output
wound up to 200 when the base is told to stop. -/
def stalledState : PIDState :=
  { leftPID :=
      { TargetStepsPerTimeFrame := 10, Position := 100, PrevEnc := 100, PrevInputSpeed := 0,
        ITerm := 0, OutputSpeed := 200 }
    rightPID :=
      { TargetStepsPerTimeFrame := 10, Position := 100, PrevEnc := 100, PrevInputSpeed := 0,
        ITerm := 0, OutputSpeed := 200 }
    moving := 0 }

/-- Handlers that leave the object alone (such as ones that only print),
registered for all three events. -/
def printingCallbacks : KY040Callbacks :=
  { _OnCbClick := some (fun k => k)
    _OnCbRight := some (fun k => k)
    _OnCbLeft := some (fun k => k) }

/-! ## Further members of the two decoders -/

/-- Conversion of a `long` to `unsigned long` (32 bits wide): reduction modulo
`2 ^ 32`. -/
def toULong (x : Int) : Nat :=
  (x % 2 ^ 32).toNat

/-- Conversion of an `unsigned long` to `long` (32 bits wide): values from
`2 ^ 31` on come out negative. -/
def ofULong (n : Nat) : Int :=
  if n % 2 ^ 32 < 2 ^ 31 then ((n % 2 ^ 32 : Nat) : Int) else ((n % 2 ^ 32 : Nat) : Int) - 2 ^ 32

/-- Method `getVelocity`: the returned value and the updated object. `millis`
is the clock. The quotient `(posDiff * 1000) / timeDiff` has a `long` dividend
and an `unsigned long` divisor, so C++ converts the dividend to `unsigned long`
and divides there; the result is stored in the signed `_lastVelocity`. -/
def RotaryEncoder.getVelocity (s : RotaryEncoder) (millis : Nat) : Int × RotaryEncoder :=
  let currentTime := millis
  let currentPosition := s.getPosition
  let timeDiff := ulongSub currentTime s._lastVelocityTime
  let posDiff := currentPosition - s._lastPosition
  let s1 : RotaryEncoder :=
    if timeDiff > 0 then
      { s with _lastVelocity := ofULong (toULong (posDiff * 1000) / timeDiff) }
    else s
  let s2 : RotaryEncoder :=
    { s1 with _lastVelocityTime := currentTime, _lastPosition := currentPosition }
  (s2._lastVelocity, s2)

/-- Method `getAcceleration`: the returned value and the updated object.
`millis` is the clock read by the method itself, `millisVel` the clock read by
the `getVelocity` call it makes next. -/
def RotaryEncoder.getAcceleration (s : RotaryEncoder) (millis millisVel : Nat) :
    Int × RotaryEncoder :=
  let currentTime := millis
  let r := s.getVelocity millisVel
  let currentVelocity := r.1
  let s1 := r.2
  let timeDiff := ulongSub currentTime s1._lastAccelerationTime
  let velocityDiff := currentVelocity - s1._lastVelocity
  let s2 : RotaryEncoder :=
    if timeDiff > 0 then
      { s1 with _lastAcceleration := ofULong (toULong (velocityDiff * 1000) / timeDiff) }
    else s1
  let s3 : RotaryEncoder :=
    { s2 with _lastAccelerationTime := currentTime, _lastVelocity := currentVelocity }
  (s3._lastAcceleration, s3)

/-- Static handler `OnButtonClicked_cb`, acting on the current instance. -/
def KY040.OnButtonClicked_cb (millis : Nat) (k : KY040) : KY040 :=
  { k with Time := (millis : Int), Pos := 0, Vel := some 0, Acc := some 0 }

/-- Static handler `OnButtonLeft_cb`, acting on the current instance. -/
def KY040.OnButtonLeft_cb (millis : Nat) (k : KY040) : KY040 :=
  let lastTime := k.Time
  let k1 : KY040 := { k with Time := (millis : Int) }
  let lastPos := k1.Pos
  let lastVel := k1.Vel
  let k2 : KY040 := { k1 with Vel := KY040.quot (some (k1.Pos - lastPos)) (k1.Time - lastTime) }
  { k2 with
    Acc := KY040.quot (match k2.Vel, lastVel with
                       | some v, some l => some (v - l)
                       | _, _ => none) (k2.Time - lastTime) }

/-- Static handler `OnButtonRight_cb`, acting on the current instance. -/
def KY040.OnButtonRight_cb (millis : Nat) (k : KY040) : KY040 :=
  let lastTime := k.Time
  let k1 : KY040 := { k with Time := (millis : Int) }
  let lastPos := k1.Pos
  let lastVel := k1.Vel
  let k2 : KY040 := { k1 with Vel := KY040.quot (some (k1.Pos - lastPos)) (k1.Time - lastTime) }
  { k2 with
    Acc := KY040.quot (match k2.Vel, lastVel with
                       | some v, some l => some (v - l)
                       | _, _ => none) (k2.Time - lastTime) }

/-- The three handlers this file defines, registered for their events; `now`
is the clock value they read. -/
def ownCallbacks (now : Nat) : KY040Callbacks :=
  { _OnCbClick := some (KY040.OnButtonClicked_cb now)
    _OnCbRight := some (KY040.OnButtonRight_cb now)
    _OnCbLeft := some (KY040.OnButtonLeft_cb now) }

/-- A handler that writes none of the four debounce members. -/
def keepsDebounce (f : KY040 → KY040) : Prop :=
  ∀ k : KY040,
    (f k).swLastTime = k.swLastTime ∧ (f k).dtLastTime = k.dtLastTime ∧
    (f k).swDebounce = k.swDebounce ∧ (f k).dtDebounce = k.dtDebounce

/-- Every registered handler leaves the debounce members alone. -/
def callbacksKeepDebounce (cb : KY040Callbacks) : Prop :=
  (∀ f, cb._OnCbClick = some f → keepsDebounce f) ∧
  (∀ f, cb._OnCbRight = some f → keepsDebounce f) ∧
  (∀ f, cb._OnCbLeft = some f → keepsDebounce f)

/-- A sampled pin state that repeats the previous one or differs from it in
exactly one bit. -/
def singleBitOrRepeat (c c' : Nat) : Prop :=
  c' < 4 ∧ (c' = c ∨ c' ^^^ c = 1 ∨ c' ^^^ c = 2)

instance (c c' : Nat) : Decidable (singleBitOrRepeat c c') := by
  unfold singleBitOrRepeat
  infer_instance

/-- A sequence of samples `(state, millis)` in which every state repeats its
predecessor or differs from it in one bit, starting after state `c`. -/
def validWalk : Nat → List (Nat × Nat) → Prop
  | _, [] => True
  | c, x :: xs => singleBitOrRepeat c x.1 ∧ validWalk x.1 xs

/-- Net number of raw steps along a walk: `+1` for each transition in the
counting-up order, `-1` for each one in the opposite order. -/
def netSteps : Nat → List (Nat × Nat) → Int
  | _, [] => 0
  | c, x :: xs =>
    (if x.1 = c then 0 else if x.1 = stepUp c then 1 else if x.1 = stepDown c then -1 else 0)
      + netSteps x.1 xs

/-- The state a walk ends in. -/
def walkEnd : Nat → List (Nat × Nat) → Nat
  | c, [] => c
  | _, x :: xs => walkEnd x.1 xs

/-- The `tick` samples `(sig1, sig2, millis)` of a walk. -/
def walkSamples (l : List (Nat × Nat)) : List (Nat × Nat × Nat) :=
  l.map (fun x => (x.1 % 2, x.1 / 2, x.2))

/-- First part of `Process`: in basic mode the pins are polled. -/
def KY040.pollStage (k : KY040) (signalA signalB sw : Nat) (millis : Nat) : KY040 :=
  if k.basicMode then
    let d := k.DecodeSignals signalA signalB millis
    if sw = 0 then { d with swState := 1 } else d
  else k

/-- Second part of `Process`: the switch with its debounce. -/
def KY040.swStage (cb : KY040Callbacks) (k1 : KY040) (t sw : Nat) : KY040 × List KY040Event :=
  let k2 : KY040 :=
    if k1.swState ≠ 0 ∧ k1.swDebounce = false then
      { k1 with swLastTime := t % 1000, swDebounce := true }
    else k1
  if k2.swDebounce = true ∧ ulongSub (t % 1000) k2.swLastTime > KY040_SW_DEBOUNCE then
    let r := if sw = 1 then KY040.invoke cb._OnCbClick KY040Event.click k2 else (k2, [])
    ({ r.1 with swState := 0, swDebounce := false }, r.2)
  else (k2, [])

/-- Third part of `Process`: the rotation direction with its debounce. -/
def KY040.dtStage (cb : KY040Callbacks) (k3 : KY040) (t : Nat) : KY040 × List KY040Event :=
  let k4 : KY040 :=
    if k3.dtState ≠ 0 ∧ k3.dtDebounce = false then
      { k3 with dtLastTime := t % 1000, dtDebounce := true }
    else k3
  if k4.dtDebounce = true ∧ ulongSub (t % 1000) k4.dtLastTime > KY040_DT_DEBOUNCE then
    let rR := if k4.dtState = 1 then KY040.invoke cb._OnCbRight KY040Event.right k4 else (k4, [])
    let rL := if rR.1.dtState = 2 then KY040.invoke cb._OnCbLeft KY040Event.left rR.1 else (rR.1, [])
    ({ rL.1 with dtState := 0, dtDebounce := false }, rR.2 ++ rL.2)
  else (k4, [])

/-! ## Decoder step table -/

/-- Claim C1. For each of the 16 transition keys `(previousState << 2) | currentState`
the step `tick` adds to `_positionInt` is the table entry `KNOBDIR[key]`; for
both decoders the step is 0 exactly when the two states are equal or differ in
both bits (keys 0, 5, 10, 15, 3, 6, 9, 12), it is +1 or -1 for every single-bit
transition, and it never exceeds 1 in absolute value. -/
theorem decoder_step_table (p c : Nat) (hp : p < 4) (hc : c < 4)
    (s : RotaryEncoder) (k : KY040) (hs : s._oldState = p) (hk : k.signalAB = p)
    (now : Nat) :
    let key := (p <<< 2) ||| c
    let dR := (s.tick (c % 2) (c / 2) now)._positionInt - s._positionInt
    let dK := (k.DecodeSignals (c % 2) (c / 2) now).Pos - k.Pos
    dR = KNOBDIR.getD key 0 ∧
    ((p = c ∨ p ^^^ c = 3) ↔ key ∈ [0, 5, 10, 15, 3, 6, 9, 12]) ∧
    (dR = 0 ↔ (p = c ∨ p ^^^ c = 3)) ∧
    (dK = 0 ↔ (p = c ∨ p ^^^ c = 3)) ∧
    ((p ^^^ c = 1 ∨ p ^^^ c = 2) → (dR = 1 ∨ dR = -1) ∧ (dK = 1 ∨ dK = -1)) ∧
    dR.natAbs ≤ 1 ∧ dK.natAbs ≤ 1 := by
  subst hs
  interval_cases hp' : s._oldState <;> interval_cases c <;>
    simp [RotaryEncoder.tick, KY040.DecodeSignals, KNOBDIR, hp', hk, LATCH0, LATCH3] <;>
    cases s._mode <;> simp

/-- Witness of `decoder_step_table`: the transition 3 → 1 (key 13) counts up in
the polled decoder and down in the interrupt decoder. -/
theorem decoder_step_table_witness :
    ((RotaryEncoder.construct RotaryEncoder.zeroed 2 3 LatchMode.FOUR3 1 1).tick 1 0 7)._positionInt
        - (RotaryEncoder.construct RotaryEncoder.zeroed 2 3 LatchMode.FOUR3 1 1)._positionInt
      = KNOBDIR.getD 13 0 ∧
    KNOBDIR.getD 13 0 = 1 ∧
    (((KY040.construct 2 3 4).DecodeSignals 1 1 0).DecodeSignals 1 0 7).Pos
        - ((KY040.construct 2 3 4).DecodeSignals 1 1 0).Pos = -1 :=
  ⟨(decoder_step_table 3 1 (by decide) (by decide)
      (RotaryEncoder.construct RotaryEncoder.zeroed 2 3 LatchMode.FOUR3 1 1)
      ((KY040.construct 2 3 4).DecodeSignals 1 1 0) rfl rfl 7).1,
   by decide, by decide⟩

/-! ## PID controller -/

/-- Claim C3. For every motor state and every parameter set with `Ko ≠ 0` and
`MAX_PWM ≥ 0`, the command `doPID` stores lies in `[-MAX_PWM, MAX_PWM]`. -/
theorem doPID_output_clamped (g : PIDParams) (p : SetPointInfo)
    (_hKo : g.Ko ≠ 0) (hMax : 0 ≤ g.MAX_PWM) :
    -g.MAX_PWM ≤ (doPID g p).OutputSpeed ∧ (doPID g p).OutputSpeed ≤ g.MAX_PWM := by
  unfold doPID
  simp only []
  split_ifs with h1 h2
  · exact ⟨by simp only []; omega, le_refl _⟩
  · exact ⟨le_refl _, by simp only []; omega⟩
  · simp only []
    omega

/-- Witness of `doPID_output_clamped`: a large error saturates at `MAX_PWM`. -/
theorem doPID_output_clamped_witness :
    defaultParams.Ko ≠ 0 ∧ 0 ≤ defaultParams.MAX_PWM ∧
    -255 ≤ (doPID defaultParams
        { TargetStepsPerTimeFrame := 1000, Position := 0, PrevEnc := 0, PrevInputSpeed := 0,
          ITerm := 0, OutputSpeed := 0 }).OutputSpeed ∧
    (doPID defaultParams
        { TargetStepsPerTimeFrame := 1000, Position := 0, PrevEnc := 0, PrevInputSpeed := 0,
          ITerm := 0, OutputSpeed := 0 }).OutputSpeed ≤ 255 :=
  ⟨by decide, by decide,
   doPID_output_clamped defaultParams
     { TargetStepsPerTimeFrame := 1000, Position := 0, PrevEnc := 0, PrevInputSpeed := 0,
       ITerm := 0, OutputSpeed := 0 } (by decide) (by decide)⟩

/-- The integral term after `doPID`, by cases on the unclamped sum. -/
lemma doPID_ITerm (g : PIDParams) (p : SetPointInfo) :
    (doPID g p).ITerm =
      if unclampedSum g p ≥ g.MAX_PWM ∨ unclampedSum g p ≤ -g.MAX_PWM then p.ITerm
      else p.ITerm + g.Ki *
        toLong (p.TargetStepsPerTimeFrame - ((p.Position - p.PrevEnc : Int) : ℚ)) := by
  unfold doPID unclampedSum
  simp only []
  rw [add_comm (Int.tdiv _ _) p.OutputSpeed]
  split_ifs with h1 h2 h3 h3 h3
  all_goals first
    | rfl
    | (exfalso; omega)

/-- A run of ticks that are all saturated leaves the integral term alone. -/
lemma controlTicks_ITerm_of_saturated (g : PIDParams) (inputs : List (ℚ × Int)) :
    ∀ p : SetPointInfo,
      (∀ q ∈ statesBefore g p inputs,
        unclampedSum g q ≥ g.MAX_PWM ∨ unclampedSum g q ≤ -g.MAX_PWM) →
      (controlTicks g p inputs).ITerm = p.ITerm := by
  induction inputs with
  | nil => intro p _; rfl
  | cons i is ih =>
    intro p h
    have hhead := h _ (List.mem_cons_self _ _)
    have htail := ih (controlTick g p i) (fun q hq => h q (List.mem_cons_of_mem _ hq))
    have hstep : (controlTick g p i).ITerm = p.ITerm := by
      unfold controlTick
      rw [doPID_ITerm, if_pos hhead]
    show (controlTicks g (controlTick g p i) is).ITerm = p.ITerm
    rw [htail, hstep]

/-- Claim C4. Anti-windup of `doPID`: with `S` the unclamped sum, the integral
term is left unchanged when `S ≥ MAX_PWM` or `S ≤ -MAX_PWM` and becomes
`ITerm + Ki * Perror` when `-MAX_PWM < S < MAX_PWM`; so it can change only on a
tick whose sum is strictly inside the bounds, and it is the same before and
after any run of consecutive ticks that are all saturated. -/
theorem doPID_anti_windup (g : PIDParams) (p : SetPointInfo) :
    let S := unclampedSum g p
    let Perror := toLong (p.TargetStepsPerTimeFrame - ((p.Position - p.PrevEnc : Int) : ℚ))
    ((S ≥ g.MAX_PWM ∨ S ≤ -g.MAX_PWM) → (doPID g p).ITerm = p.ITerm) ∧
    ((-g.MAX_PWM < S ∧ S < g.MAX_PWM) → (doPID g p).ITerm = p.ITerm + g.Ki * Perror) ∧
    ((doPID g p).ITerm ≠ p.ITerm → -g.MAX_PWM < S ∧ S < g.MAX_PWM) ∧
    (∀ inputs : List (ℚ × Int),
      (∀ q ∈ statesBefore g p inputs,
        unclampedSum g q ≥ g.MAX_PWM ∨ unclampedSum g q ≤ -g.MAX_PWM) →
      (controlTicks g p inputs).ITerm = p.ITerm) := by
  intro S Perror
  refine ⟨?_, ?_, ?_, ?_⟩
  · intro h
    rw [doPID_ITerm, if_pos h]
  · intro h
    have hn : ¬ (unclampedSum g p ≥ g.MAX_PWM ∨ unclampedSum g p ≤ -g.MAX_PWM) := by
      rintro (h' | h')
      · exact absurd h.2 (not_lt.mpr h')
      · exact absurd h.1 (not_lt.mpr h')
    rw [doPID_ITerm, if_neg hn]
  · intro hne
    by_contra hcon
    apply hne
    have hs : unclampedSum g p ≥ g.MAX_PWM ∨ unclampedSum g p ≤ -g.MAX_PWM := by
      by_contra hn
      apply hcon
      constructor
      · exact not_le.mp (fun h' => hn (Or.inr h'))
      · exact not_le.mp (fun h' => hn (Or.inl h'))
    rw [doPID_ITerm, if_pos hs]
  · intro inputs h
    exact controlTicks_ITerm_of_saturated g inputs p h

/-- Witness of `doPID_anti_windup`: with target 1000 and a standing wheel the sum
is 400, the output saturates and the integral term stays 7; with target 10 the
sum is 4 and the integral term grows by `Ki * 10`. -/
theorem doPID_anti_windup_witness :
    (doPID integralParams
        { TargetStepsPerTimeFrame := 1000, Position := 0, PrevEnc := 0, PrevInputSpeed := 0,
          ITerm := 7, OutputSpeed := 0 }).ITerm = 7 ∧
    (doPID integralParams
        { TargetStepsPerTimeFrame := 10, Position := 0, PrevEnc := 0, PrevInputSpeed := 0,
          ITerm := 7, OutputSpeed := 0 }).ITerm = 37 :=
  by
  have h1 := (doPID_anti_windup integralParams
      { TargetStepsPerTimeFrame := 1000, Position := 0, PrevEnc := 0, PrevInputSpeed := 0,
        ITerm := 7, OutputSpeed := 0 }).1
      (Or.inl (by
        simp [unclampedSum, integralParams, toLong]
        decide))
  have h2 := (doPID_anti_windup integralParams
      { TargetStepsPerTimeFrame := 10, Position := 0, PrevEnc := 0, PrevInputSpeed := 0,
        ITerm := 7, OutputSpeed := 0 }).2.1
      (by
        simp [unclampedSum, integralParams, toLong]
        decide)
  refine ⟨h1, ?_⟩
  rw [h2]
  simp [integralParams, toLong]

/-- The conversion to `long` is exact on integer values. -/
lemma toLong_intCast (z : Int) : toLong (z : ℚ) = z := by
  simp [toLong]

/-- Claim C5. With an integer target `tgt` and `Ko ≠ 0`, `doPID` uses
`m = Position - PrevEnc` and `e = tgt - m`; when the sum
`OutputSpeed + (Kp*e - Kd*(m - PrevInputSpeed) + ITerm)/Ko` (truncating division,
`ITerm` as it was on entry) is strictly between `-MAX_PWM` and `MAX_PWM` the new
`OutputSpeed` is that sum; in every case `PrevEnc` ends equal to `Position`,
`PrevInputSpeed` equal to `m`, and `Position` and the target are unchanged. -/
theorem doPID_incremental_form (g : PIDParams) (p : SetPointInfo) (tgt : Int)
    (hT : p.TargetStepsPerTimeFrame = (tgt : ℚ)) (_hKo : g.Ko ≠ 0) :
    let m := p.Position - p.PrevEnc
    let e := tgt - m
    let S := p.OutputSpeed + Int.tdiv (g.Kp * e - g.Kd * (m - p.PrevInputSpeed) + p.ITerm) g.Ko
    ((-g.MAX_PWM < S ∧ S < g.MAX_PWM) → (doPID g p).OutputSpeed = S) ∧
    (doPID g p).PrevEnc = p.Position ∧
    (doPID g p).PrevInputSpeed = m ∧
    (doPID g p).Position = p.Position ∧
    (doPID g p).TargetStepsPerTimeFrame = p.TargetStepsPerTimeFrame := by
  intro m e S
  have he : toLong (p.TargetStepsPerTimeFrame - ((p.Position - p.PrevEnc : Int) : ℚ)) = e := by
    rw [hT, ← Int.cast_sub, toLong_intCast]
  refine ⟨?_, ?_, ?_, ?_, ?_⟩
  · intro hS
    unfold doPID
    simp only [he]
    have h1 : ¬ (Int.tdiv (g.Kp * e - g.Kd * (p.Position - p.PrevEnc - p.PrevInputSpeed) + p.ITerm)
        g.Ko + p.OutputSpeed ≥ g.MAX_PWM) := by
      have := hS.2
      show ¬ (_ ≥ _)
      simp only [S, m] at this
      omega
    have h2 : ¬ (Int.tdiv (g.Kp * e - g.Kd * (p.Position - p.PrevEnc - p.PrevInputSpeed) + p.ITerm)
        g.Ko + p.OutputSpeed ≤ -g.MAX_PWM) := by
      have := hS.1
      simp only [S, m] at this
      omega
    rw [if_neg h1, if_neg h2]
    simp only [S, m]
    omega
  all_goals
    simp only [doPID]
    try (split_ifs <;> rfl)

/-- Witness of `doPID_incremental_form`: target 10, measured speed 4, the
increment is `(20*6 - 12*(4 - 1))/50 = 1` and the output goes from 30 to 31. -/
theorem doPID_incremental_form_witness :
    (doPID defaultParams
        { TargetStepsPerTimeFrame := 10, Position := 104, PrevEnc := 100, PrevInputSpeed := 1,
          ITerm := 0, OutputSpeed := 30 }).OutputSpeed = 31 ∧
    (doPID defaultParams
        { TargetStepsPerTimeFrame := 10, Position := 104, PrevEnc := 100, PrevInputSpeed := 1,
          ITerm := 0, OutputSpeed := 30 }).PrevEnc = 104 ∧
    (doPID defaultParams
        { TargetStepsPerTimeFrame := 10, Position := 104, PrevEnc := 100, PrevInputSpeed := 1,
          ITerm := 0, OutputSpeed := 30 }).PrevInputSpeed = 4 := by
  have h := doPID_incremental_form defaultParams
    { TargetStepsPerTimeFrame := 10, Position := 104, PrevEnc := 100, PrevInputSpeed := 1,
      ITerm := 0, OutputSpeed := 30 } 10 (by norm_num) (by decide)
  refine ⟨?_, h.2.1, ?_⟩
  · rw [h.1 (by simp [defaultParams]; decide)]
    simp [defaultParams]
    decide
  · rw [h.2.2.1]
    decide

/-! ## Polled decoder: direction and position accessors -/

/-- The object after `getDirection`: only `_lastPosition` is rewritten. -/
lemma RotaryEncoder.getDirection_snd (s : RotaryEncoder) :
    s.getDirection.2 = { s with _lastPosition := s._position } := by
  unfold RotaryEncoder.getDirection
  split_ifs <;> rfl

/-- With nothing to report `getDirection` answers NOROTATION. -/
lemma RotaryEncoder.getDirection_of_eq (s : RotaryEncoder)
    (h : s._lastPosition = s._position) : s.getDirection.1 = Direction.NOROTATION := by
  unfold RotaryEncoder.getDirection
  simp [h]

/-- Claim C7. The direction `getDirection` returns is CLOCKWISE iff
`_position > _lastPosition`, COUNTERCLOCKWISE iff `_position < _lastPosition` and
NOROTATION iff they are equal; a second call right after the first returns
NOROTATION. -/
theorem getDirection_edge_triggered (s : RotaryEncoder) :
    (s.getDirection.1 = Direction.CLOCKWISE ↔ s._position > s._lastPosition) ∧
    (s.getDirection.1 = Direction.COUNTERCLOCKWISE ↔ s._position < s._lastPosition) ∧
    (s.getDirection.1 = Direction.NOROTATION ↔ s._position = s._lastPosition) ∧
    s.getDirection.2.getDirection.1 = Direction.NOROTATION := by
  refine ⟨?_, ?_, ?_, ?_⟩
  · unfold RotaryEncoder.getDirection
    split_ifs <;> simp <;> omega
  · unfold RotaryEncoder.getDirection
    split_ifs <;> simp <;> omega
  · unfold RotaryEncoder.getDirection
    split_ifs <;> simp <;> omega
  · apply RotaryEncoder.getDirection_of_eq
    rw [RotaryEncoder.getDirection_snd]

/-- Claim C8. In every latch mode and for every value `P`, `getPosition` right
after `setPosition P` returns `P`. -/
theorem setPosition_getPosition (s : RotaryEncoder) (P : Int) :
    (s.setPosition P).getPosition = P := by
  unfold RotaryEncoder.setPosition RotaryEncoder.getPosition
  cases s._mode <;> rfl

/-! ## Polled decoder: counting detents -/

lemma tickAlong_stepUp : tickAlong stepUp 1 1 := by
  intro s t h
  interval_cases hp : s._oldState <;>
    simp [RotaryEncoder.tick, KNOBDIR, hp, LATCH0, LATCH3, stepUp, upPhase, latchInv] <;>
    cases hm : s._mode <;> simp [isLatchState, latchShift, LATCH0, LATCH3]

lemma tickAlong_stepDown : tickAlong stepDown (-1) 3 := by
  intro s t h
  interval_cases hp : s._oldState <;>
    simp [RotaryEncoder.tick, KNOBDIR, hp, LATCH0, LATCH3, stepDown, upPhase, latchInv] <;>
    cases hm : s._mode <;> simp [isLatchState, latchShift, LATCH0, LATCH3]

/-- A run of ticks along a direction: raw accumulator, phase, mode and latch
invariant at the end. -/
lemma ticks_rotate (next : Nat → Nat) (δ : Int) (k : Nat) (hstep : tickAlong next δ k) :
    ∀ (clk : List Nat) (s : RotaryEncoder), s._oldState < 4 →
      (s.ticks (rotate next s._oldState clk))._positionInt = s._positionInt + δ * clk.length ∧
      (s.ticks (rotate next s._oldState clk))._oldState < 4 ∧
      upPhase (s.ticks (rotate next s._oldState clk))._oldState
        = (upPhase s._oldState + k * clk.length) % 4 ∧
      (s.ticks (rotate next s._oldState clk))._mode = s._mode ∧
      (latchInv s → latchInv (s.ticks (rotate next s._oldState clk))) := by
  intro clk
  induction clk with
  | nil =>
    intro s h
    have hph : upPhase s._oldState < 4 := by
      interval_cases s._oldState <;> simp [upPhase]
    simp [rotate, RotaryEncoder.ticks]
    omega
  | cons t ts ih =>
    intro s h
    obtain ⟨h1, h2, h3, h4, h5, h6⟩ := hstep s t h
    have hrun : s.ticks (rotate next s._oldState (t :: ts))
        = (s.tick (next s._oldState % 2) (next s._oldState / 2) t).ticks
            (rotate next (s.tick (next s._oldState % 2) (next s._oldState / 2) t)._oldState ts) := by
      rw [h2]
      rfl
    rw [hrun]
    obtain ⟨i1, i2, i3, i4, i5⟩ := ih (s.tick (next s._oldState % 2) (next s._oldState / 2) t)
      (by rw [h2]; exact h3)
    refine ⟨?_, i2, ?_, ?_, fun _ => i5 h6⟩
    · rw [i1, h1]
      simp only [List.length_cons]
      push_cast
      ring
    · rw [i3, h2, h4]
      simp only [List.length_cons, Nat.mul_succ]
      omega
    · rw [i4, h5]

/-- A freshly constructed encoder sampled in pin state `start`. -/
lemma construct_fields (mem : RotaryEncoder) (pin1 pin2 : Nat) (mode : LatchMode)
    (start : Nat) (h : start < 4) :
    (RotaryEncoder.construct mem pin1 pin2 mode (start % 2) (start / 2))._oldState = start ∧
    (RotaryEncoder.construct mem pin1 pin2 mode (start % 2) (start / 2))._positionInt = 0 ∧
    (RotaryEncoder.construct mem pin1 pin2 mode (start % 2) (start / 2))._position = 0 ∧
    (RotaryEncoder.construct mem pin1 pin2 mode (start % 2) (start / 2))._mode = mode := by
  interval_cases start <;> simp [RotaryEncoder.construct]

lemma isLatchState_lt {mode : LatchMode} {c : Nat} (h : isLatchState mode c) : c < 4 := by
  cases mode <;> simp [isLatchState, LATCH0, LATCH3] at h <;> omega

/-- A phase that differs from a latch state's phase by whole detents is the
phase of a latch state. -/
lemma isLatchState_of_phase {mode : LatchMode} {c c' : Nat} (j : Nat)
    (h : isLatchState mode c) (hc' : c' < 4)
    (hph : upPhase c' = (upPhase c + j * ticksPerDetent mode) % 4) :
    isLatchState mode c' := by
  cases mode <;> simp [isLatchState, LATCH0, LATCH3, ticksPerDetent, latchShift] at h hph ⊢
  · subst h
    interval_cases c' <;> simp [upPhase] at hph ⊢
  · subst h
    interval_cases c' <;> simp [upPhase] at hph ⊢
  · rcases h with h | h <;> subst h <;>
      interval_cases c' <;> simp [upPhase] at hph ⊢ <;> omega

/-- Shifting a whole number of detent steps: `(d * 2^n) >> n = d`. -/
lemma shiftRight_detents (mode : LatchMode) (d : Int) :
    (d * (ticksPerDetent mode : Int)) >>> latchShift mode = d := by
  rw [Int.shiftRight_eq_div_pow]
  cases mode <;> simp [ticksPerDetent, latchShift]

/-- Claim C2. An encoder constructed while the pins read a latch state of its
mode and ticked once per single-bit transition through `N` detent steps in the
counting-up order 3, 1, 0, 2, 3 reports position `N`; through `N` detent steps
in the opposite order it reports `-N`. A detent step is 4 ticks in the FOUR
modes and 2 ticks in TWO03; `clk` lists the clock value of each tick. -/
theorem detent_steps_counted (N : Nat) (mode : LatchMode) (mem : RotaryEncoder)
    (pin1 pin2 start : Nat) (hstart : isLatchState mode start)
    (clk : List Nat) (hlen : clk.length = ticksPerDetent mode * N) :
    ((RotaryEncoder.construct mem pin1 pin2 mode (start % 2) (start / 2)).ticks
        (rotate stepUp start clk)).getPosition = (N : Int) ∧
    ((RotaryEncoder.construct mem pin1 pin2 mode (start % 2) (start / 2)).ticks
        (rotate stepDown start clk)).getPosition = -(N : Int) := by
  obtain ⟨c1, c2, c3, c4⟩ := construct_fields mem pin1 pin2 mode start (isLatchState_lt hstart)
  have hinv0 : latchInv (RotaryEncoder.construct mem pin1 pin2 mode (start % 2) (start / 2)) := by
    intro _
    rw [c2, c3]
    simp [Int.shiftRight_eq_div_pow]
  have hlt : (RotaryEncoder.construct mem pin1 pin2 mode (start % 2) (start / 2))._oldState < 4 := by
    rw [c1]; exact isLatchState_lt hstart
  constructor
  · obtain ⟨r1, r2, r3, r4, r5⟩ := ticks_rotate stepUp 1 1 tickAlong_stepUp clk _ hlt
    rw [c1] at r1 r2 r3 r4 r5
    rw [c2] at r1
    rw [c4] at r4
    have hl : isLatchState mode
        ((RotaryEncoder.construct mem pin1 pin2 mode (start % 2) (start / 2)).ticks
          (rotate stepUp start clk))._oldState := by
      apply isLatchState_of_phase N hstart r2
      rw [r3, hlen]
      congr 2
      ring
    have hp := r5 hinv0 (by rw [r4]; exact hl)
    unfold RotaryEncoder.getPosition
    rw [hp, r1, r4, hlen]
    have e : (0 + 1 * ((ticksPerDetent mode * N : Nat) : Int))
        = (N : Int) * (ticksPerDetent mode : Int) := by
      push_cast
      ring
    rw [e]
    exact shiftRight_detents mode (N : Int)
  · obtain ⟨r1, r2, r3, r4, r5⟩ := ticks_rotate stepDown (-1) 3 tickAlong_stepDown clk _ hlt
    rw [c1] at r1 r2 r3 r4 r5
    rw [c2] at r1
    rw [c4] at r4
    have hl : isLatchState mode
        ((RotaryEncoder.construct mem pin1 pin2 mode (start % 2) (start / 2)).ticks
          (rotate stepDown start clk))._oldState := by
      apply isLatchState_of_phase (3 * N) hstart r2
      rw [r3, hlen]
      congr 2
      ring
    have hp := r5 hinv0 (by rw [r4]; exact hl)
    unfold RotaryEncoder.getPosition
    rw [hp, r1, r4, hlen]
    have e : (0 + -1 * ((ticksPerDetent mode * N : Nat) : Int))
        = (-(N : Int)) * (ticksPerDetent mode : Int) := by
      push_cast
      ring
    rw [e]
    exact shiftRight_detents mode (-(N : Int))

/-- Witness of `detent_steps_counted`: two detent steps in FOUR3 mode. -/
theorem detent_steps_counted_witness :
    ((RotaryEncoder.construct RotaryEncoder.zeroed 2 3 LatchMode.FOUR3 1 1).ticks
        (rotate stepUp 3 [10, 20, 30, 40, 50, 60, 70, 80])).getPosition = 2 ∧
    ((RotaryEncoder.construct RotaryEncoder.zeroed 2 3 LatchMode.FOUR3 1 1).ticks
        (rotate stepDown 3 [10, 20, 30, 40, 50, 60, 70, 80])).getPosition = -2 :=
  detent_steps_counted 2 LatchMode.FOUR3 RotaryEncoder.zeroed 2 3 3 (by decide)
    [10, 20, 30, 40, 50, 60, 70, 80] (by decide)

/-! ## Polled decoder: re-basing the accumulator -/

lemma Int.land_zero_right (y : Int) : Int.land y 0 = 0 := by
  cases y with
  | ofNat m => show ((m &&& 0 : Nat) : Int) = 0; simp
  | negSucc m => show ((Nat.ldiff 0 m : Nat) : Int) = 0; simp [Nat.ldiff]

lemma Int.lor_zero_right (y : Int) : Int.lor y 0 = y := by
  cases y with
  | ofNat m => show ((m ||| 0 : Nat) : Int) = (m : Int); simp
  | negSucc m => show Int.negSucc (Nat.ldiff m 0) = Int.negSucc m; simp [Nat.ldiff]

lemma Int.bit_bit_val (a b : Bool) (y : Int) :
    Int.bit a (Int.bit b y) = 4 * y + (cond b 2 0 + cond a 1 0) := by
  rw [Int.bit_val, Int.bit_val]
  cases a <;> cases b <;> simp <;> ring

/-- Bit-level content of `(P << 2) | (x & 3)`. -/
lemma rebase_four (P x : Int) :
    Int.lor (P <<< (2 : Int)) (Int.land x 3) = 4 * P + Int.land x 3 ∧
    0 ≤ Int.land x 3 ∧ Int.land x 3 < 4 ∧
    Int.land (Int.lor (P <<< (2 : Int)) (Int.land x 3)) 3 = Int.land x 3 := by
  have hx : x = Int.bit (Int.bodd x) (Int.bit (Int.bodd (Int.div2 x)) (Int.div2 (Int.div2 x))) := by
    rw [Int.bit_decomp, Int.bit_decomp]
  have h3 : (3 : Int) = Int.bit true (Int.bit true 0) := by decide
  have hP : P <<< (2 : Int) = Int.bit false (Int.bit false P) := by
    rw [Int.bit_bit_val]
    have := Int.shiftLeft_eq_mul_pow P 2
    simp at this ⊢
    rw [this]
    ring
  have hl : Int.land x 3 = Int.bit (Int.bodd x) (Int.bit (Int.bodd (Int.div2 x)) 0) := by
    conv_lhs => rw [hx, h3]
    rw [Int.land_bit, Int.land_bit, Int.land_zero_right]
    simp
  rw [hP, hl, Int.lor_bit, Int.lor_bit, Int.lor_zero_right]
  refine ⟨?_, ?_, ?_, ?_⟩
  · simp only [Int.bit_bit_val, Bool.false_or]
    ring
  · rw [Int.bit_bit_val]
    cases Int.bodd x <;> cases Int.bodd (Int.div2 x) <;> simp
  · rw [Int.bit_bit_val]
    cases Int.bodd x <;> cases Int.bodd (Int.div2 x) <;> simp
  · rw [h3, Int.land_bit, Int.land_bit, Int.land_zero_right]
    simp

/-- Bit-level content of `(P << 1) | (x & 1)`. -/
lemma rebase_two (P x : Int) :
    Int.lor (P <<< (1 : Int)) (Int.land x 1) = 2 * P + Int.land x 1 ∧
    0 ≤ Int.land x 1 ∧ Int.land x 1 < 2 ∧
    Int.land (Int.lor (P <<< (1 : Int)) (Int.land x 1)) 1 = Int.land x 1 := by
  have hx : x = Int.bit (Int.bodd x) (Int.div2 x) := by
    rw [Int.bit_decomp]
  have h1 : (1 : Int) = Int.bit true 0 := by decide
  have hP : P <<< (1 : Int) = Int.bit false P := by
    rw [Int.bit_val]
    have := Int.shiftLeft_eq_mul_pow P 1
    simp at this ⊢
    rw [this]
    ring
  have hl : Int.land x 1 = Int.bit (Int.bodd x) 0 := by
    conv_lhs => rw [hx, h1]
    rw [Int.land_bit, Int.land_zero_right]
    simp
  rw [hP, hl, Int.lor_bit, Int.lor_zero_right]
  refine ⟨?_, ?_, ?_, ?_⟩
  · simp only [Int.bit_val, Bool.false_or]
    cases Int.bodd x <;> simp
  · rw [Int.bit_val]
    cases Int.bodd x <;> simp
  · rw [Int.bit_val]
    cases Int.bodd x <;> simp
  · rw [h1, Int.land_bit, Int.land_zero_right]
    simp

/-- Adding whole detent steps to the raw accumulator adds them to its shift. -/
lemma shiftRight_add_detents (mode : LatchMode) (x k : Int) :
    (x + k * (ticksPerDetent mode : Int)) >>> latchShift mode = x >>> latchShift mode + k := by
  rw [Int.shiftRight_eq_div_pow, Int.shiftRight_eq_div_pow]
  cases mode <;> simp [ticksPerDetent, latchShift] <;> omega

lemma RotaryEncoder.setPosition_mode (s : RotaryEncoder) (P : Int) :
    (s.setPosition P)._mode = s._mode ∧ (s.setPosition P)._oldState = s._oldState ∧
    (s.setPosition P)._position = P := by
  unfold RotaryEncoder.setPosition
  cases h : s._mode <;> simp [h]

lemma RotaryEncoder.tick_mode (s : RotaryEncoder) (a b t : Nat) :
    (s.tick a b t)._mode = s._mode := by
  unfold RotaryEncoder.tick
  simp only []
  split_ifs <;> cases h : s._mode <;> simp [h]

lemma RotaryEncoder.ticks_mode (samples : List (Nat × Nat × Nat)) :
    ∀ s : RotaryEncoder, (s.ticks samples)._mode = s._mode := by
  induction samples with
  | nil => intro s; rfl
  | cons x xs ih =>
    intro s
    show ((s.tick x.1 x.2.1 x.2.2).ticks xs)._mode = s._mode
    rw [ih, RotaryEncoder.tick_mode]

/-- A tick that samples a new state which is a latch state of the mode copies
the shifted raw accumulator to the visible position. -/
lemma RotaryEncoder.tick_latches (s : RotaryEncoder) (a b t : Nat)
    (hne : (a ||| (b <<< 1)) ≠ s._oldState) (hl : isLatchState s._mode (a ||| (b <<< 1))) :
    (s.tick a b t)._position = (s.tick a b t)._positionInt >>> latchShift s._mode := by
  unfold RotaryEncoder.tick
  simp only []
  rw [if_pos (Ne.symm hne)]
  cases h : s._mode <;> rw [h] at hl <;> simp only [isLatchState] at hl <;>
    simp [h, hl, latchShift]

/-- The raw accumulator after `setPosition P`, shifted, is `P`. -/
lemma RotaryEncoder.setPosition_shift (s : RotaryEncoder) (P : Int) :
    (s.setPosition P)._positionInt >>> latchShift s._mode = P ∧
    Int.land (s.setPosition P)._positionInt (lowMask s._mode)
      = Int.land s._positionInt (lowMask s._mode) := by
  obtain ⟨f1, f2, f3, f4⟩ := rebase_four P s._positionInt
  obtain ⟨t1, t2, t3, t4⟩ := rebase_two P s._positionInt
  unfold RotaryEncoder.setPosition
  cases h : s._mode <;> simp only [latchShift, lowMask]
  · refine ⟨?_, f4⟩
    rw [f1, Int.shiftRight_eq_div_pow]
    norm_num
    omega
  · refine ⟨?_, f4⟩
    rw [f1, Int.shiftRight_eq_div_pow]
    norm_num
    omega
  · refine ⟨?_, t4⟩
    rw [t1, Int.shiftRight_eq_div_pow]
    norm_num
    omega

/-- Claim C9. After `setPosition P` the raw accumulator shifted right by 2 (FOUR
modes) or 1 (TWO03) is `P` and its sub-detent low bits (`& 3`, resp. `& 1`) are
what they were. Hence a later latching tick reached with a net raw change of
`k` whole detent steps (`k = 0` included, `k` of either sign) makes
`getPosition` return `P + k`; in particular, from a latch state, `N` detent
steps in the counting-up order give `P + N` and `N` in the opposite order give
`P - N`. -/
theorem setPosition_rebases (s : RotaryEncoder) (P : Int) :
    (s.setPosition P)._positionInt >>> latchShift s._mode = P ∧
    Int.land (s.setPosition P)._positionInt (lowMask s._mode)
      = Int.land s._positionInt (lowMask s._mode) ∧
    (∀ (pre : List (Nat × Nat × Nat)) (sig1 sig2 t : Nat) (k : Int),
      (sig1 ||| (sig2 <<< 1)) ≠ ((s.setPosition P).ticks pre)._oldState →
      isLatchState s._mode (sig1 ||| (sig2 <<< 1)) →
      (((s.setPosition P).ticks pre).tick sig1 sig2 t)._positionInt
        = (s.setPosition P)._positionInt + k * (ticksPerDetent s._mode : Int) →
      (((s.setPosition P).ticks pre).tick sig1 sig2 t).getPosition = P + k) ∧
    (∀ (N : Nat) (clk : List Nat),
      isLatchState s._mode s._oldState → clk.length = ticksPerDetent s._mode * N →
      ((s.setPosition P).ticks (rotate stepUp s._oldState clk)).getPosition = P + N ∧
      ((s.setPosition P).ticks (rotate stepDown s._oldState clk)).getPosition = P - N) := by
  obtain ⟨m1, m2, m3⟩ := RotaryEncoder.setPosition_mode s P
  obtain ⟨b1, b2⟩ := RotaryEncoder.setPosition_shift s P
  refine ⟨b1, b2, ?_, ?_⟩
  · intro pre sig1 sig2 t k hne hl hraw
    have hmode : ((s.setPosition P).ticks pre)._mode = s._mode := by
      rw [RotaryEncoder.ticks_mode, m1]
    have hlat := RotaryEncoder.tick_latches ((s.setPosition P).ticks pre) sig1 sig2 t hne
      (by rw [hmode]; exact hl)
    unfold RotaryEncoder.getPosition
    rw [hlat, hraw, hmode, shiftRight_add_detents, b1]
  · intro N clk hl hlen
    have hlt : (s.setPosition P)._oldState < 4 := by
      rw [m2]; exact isLatchState_lt hl
    have hinv0 : latchInv (s.setPosition P) := by
      intro _
      rw [m3, m1, b1]
    constructor
    · obtain ⟨r1, r2, r3, r4, r5⟩ := ticks_rotate stepUp 1 1 tickAlong_stepUp clk _ hlt
      rw [m2] at r1 r2 r3 r4 r5
      rw [m1] at r4
      have hfin : isLatchState s._mode
          ((s.setPosition P).ticks (rotate stepUp s._oldState clk))._oldState := by
        apply isLatchState_of_phase N hl r2
        rw [r3, hlen]
        congr 2
        ring
      have hp := r5 hinv0 (by rw [r4]; exact hfin)
      unfold RotaryEncoder.getPosition
      rw [hp, r1, r4, hlen]
      have e : (1 * ((ticksPerDetent s._mode * N : Nat) : Int))
          = (N : Int) * (ticksPerDetent s._mode : Int) := by
        push_cast
        ring
      rw [e, shiftRight_add_detents, b1]
    · obtain ⟨r1, r2, r3, r4, r5⟩ := ticks_rotate stepDown (-1) 3 tickAlong_stepDown clk _ hlt
      rw [m2] at r1 r2 r3 r4 r5
      rw [m1] at r4
      have hfin : isLatchState s._mode
          ((s.setPosition P).ticks (rotate stepDown s._oldState clk))._oldState := by
        apply isLatchState_of_phase (3 * N) hl r2
        rw [r3, hlen]
        congr 2
        ring
      have hp := r5 hinv0 (by rw [r4]; exact hfin)
      unfold RotaryEncoder.getPosition
      rw [hp, r1, r4, hlen]
      have e : (-1 * ((ticksPerDetent s._mode * N : Nat) : Int))
          = (-(N : Int)) * (ticksPerDetent s._mode : Int) := by
        push_cast
        ring
      rw [e, shiftRight_add_detents, b1]
      ring

/-- Witness of `setPosition_rebases`: re-based to -7 at the latch state, one
detent step up reads -6 and one down reads -8. -/
theorem setPosition_rebases_witness :
    (((RotaryEncoder.construct RotaryEncoder.zeroed 2 3 LatchMode.FOUR3 1 1).setPosition (-7)).ticks
        (rotate stepUp 3 [10, 20, 30, 40])).getPosition = -6 ∧
    (((RotaryEncoder.construct RotaryEncoder.zeroed 2 3 LatchMode.FOUR3 1 1).setPosition (-7)).ticks
        (rotate stepDown 3 [10, 20, 30, 40])).getPosition = -8 :=
  (setPosition_rebases (RotaryEncoder.construct RotaryEncoder.zeroed 2 3 LatchMode.FOUR3 1 1)
    (-7)).2.2.2 1 [10, 20, 30, 40] (by decide) (by decide)

/-! ## PID controller: stop and restart -/

/-- While stopped and already reset, `updatePID` only refreshes `Position`. -/
lemma updatePID_paused_clean (g : PIDParams) (e : Nat → Int) (tl tr : ℚ)
    (pl pr a b : Int) :
    (updatePID g e
      { leftPID := { TargetStepsPerTimeFrame := tl, Position := pl, PrevEnc := a,
                     PrevInputSpeed := 0, ITerm := 0, OutputSpeed := 0 }
        rightPID := { TargetStepsPerTimeFrame := tr, Position := pr, PrevEnc := b,
                      PrevInputSpeed := 0, ITerm := 0, OutputSpeed := 0 }
        moving := 0 }).1 =
      { leftPID := { TargetStepsPerTimeFrame := tl, Position := e LEFT, PrevEnc := a,
                     PrevInputSpeed := 0, ITerm := 0, OutputSpeed := 0 }
        rightPID := { TargetStepsPerTimeFrame := tr, Position := e RIGHT, PrevEnc := b,
                      PrevInputSpeed := 0, ITerm := 0, OutputSpeed := 0 }
        moving := 0 } := by
  simp [updatePID]

/-- Any number of further stopped ticks keeps the reset state, `PrevEnc`
included; only `Position` follows the encoder. -/
lemma updatePIDs_paused_clean (g : PIDParams) (es : List (Nat → Int)) :
    ∀ (pl pr a b : Int), ∃ pl' pr' : Int,
      updatePIDs g
        { leftPID := { TargetStepsPerTimeFrame := 0, Position := pl, PrevEnc := a,
                       PrevInputSpeed := 0, ITerm := 0, OutputSpeed := 0 }
          rightPID := { TargetStepsPerTimeFrame := 0, Position := pr, PrevEnc := b,
                        PrevInputSpeed := 0, ITerm := 0, OutputSpeed := 0 }
          moving := 0 } es =
        { leftPID := { TargetStepsPerTimeFrame := 0, Position := pl', PrevEnc := a,
                       PrevInputSpeed := 0, ITerm := 0, OutputSpeed := 0 }
          rightPID := { TargetStepsPerTimeFrame := 0, Position := pr', PrevEnc := b,
                        PrevInputSpeed := 0, ITerm := 0, OutputSpeed := 0 }
          moving := 0 } := by
  induction es with
  | nil => intro pl pr a b; exact ⟨pl, pr, rfl⟩
  | cons e es ih =>
    intro pl pr a b
    obtain ⟨pl', pr', h⟩ := ih (e LEFT) (e RIGHT) a b
    refine ⟨pl', pr', ?_⟩
    rw [← h]
    show updatePIDs g (updatePID g e _).1 es = _
    rw [updatePID_paused_clean]

/-- The first stopped tick resets both motors when the proxy fires. -/
lemma updatePID_first_paused (g : PIDParams) (e : Nat → Int) (st : PIDState)
    (hm : st.moving = 0)
    (hp : st.leftPID.PrevInputSpeed ≠ 0 ∨ st.rightPID.PrevInputSpeed ≠ 0) :
    (updatePID g e st).1 =
      { leftPID := { TargetStepsPerTimeFrame := 0, Position := e LEFT, PrevEnc := e LEFT,
                     PrevInputSpeed := 0, ITerm := 0, OutputSpeed := 0 }
        rightPID := { TargetStepsPerTimeFrame := 0, Position := e RIGHT, PrevEnc := e RIGHT,
                      PrevInputSpeed := 0, ITerm := 0, OutputSpeed := 0 }
        moving := 0 } := by
  unfold updatePID
  simp only [hm, if_true]
  rw [if_pos hp]
  simp [resetPID, hm]

/-- The command `doPID` stores when entered on a clean state. -/
lemma doPID_cleanStart_output (g : PIDParams) (target enc reading : Int) :
    (doPID g (cleanStart target enc reading)).OutputSpeed =
      clampPWM g (Int.tdiv (g.Kp * (target - (reading - enc)) - g.Kd * (reading - enc)) g.Ko) := by
  have he : toLong ((target : ℚ) - ((reading - enc : Int) : ℚ)) = target - (reading - enc) := by
    rw [← Int.cast_sub, toLong_intCast]
  unfold doPID clampPWM cleanStart
  simp only [he, sub_zero, add_zero]
  split_ifs <;> rfl

/-- Claim C6, as the code has it. If `updatePID` runs one or more times while
`moving == 0` and at the first of these calls some motor has
`PrevInputSpeed != 0` (so that call resets), then the first call after the
start command enters each motor's `doPID` with `ITerm`, `PrevInputSpeed` and
`OutputSpeed` all zero and with `PrevEnc` equal to the encoder reading of the
first stopped call. The measured speed is therefore this call's reading minus
the reading of the first stopped call, and the command is the single clamped
increment `(Kp*(target - measuredSpeed) - Kd*measuredSpeed)/Ko`. -/
theorem restart_after_reset (g : PIDParams) (st0 : PIDState)
    (first : Nat → Int) (later : List (Nat → Int)) (now : Nat → Int)
    (targetLeft targetRight : Int)
    (hstop : st0.moving = 0)
    (hproxy : st0.leftPID.PrevInputSpeed ≠ 0 ∨ st0.rightPID.PrevInputSpeed ≠ 0) :
    let restart := updatePID g now
      (startMoving (updatePIDs g st0 (first :: later)) targetLeft targetRight)
    let mL := now LEFT - first LEFT
    let mR := now RIGHT - first RIGHT
    restart.1.leftPID = doPID g (cleanStart targetLeft (first LEFT) (now LEFT)) ∧
    restart.1.rightPID = doPID g (cleanStart targetRight (first RIGHT) (now RIGHT)) ∧
    restart.2 = some
      (clampPWM g (Int.tdiv (g.Kp * (targetLeft - mL) - g.Kd * mL) g.Ko),
       clampPWM g (Int.tdiv (g.Kp * (targetRight - mR) - g.Kd * mR) g.Ko)) := by
  intro restart mL mR
  obtain ⟨pl, pr, hrun⟩ := updatePIDs_paused_clean g later (first LEFT) (first RIGHT)
    (first LEFT) (first RIGHT)
  have hpaused : updatePIDs g st0 (first :: later) =
      { leftPID := { TargetStepsPerTimeFrame := 0, Position := pl, PrevEnc := first LEFT,
                     PrevInputSpeed := 0, ITerm := 0, OutputSpeed := 0 }
        rightPID := { TargetStepsPerTimeFrame := 0, Position := pr, PrevEnc := first RIGHT,
                      PrevInputSpeed := 0, ITerm := 0, OutputSpeed := 0 }
        moving := 0 } := by
    rw [← hrun, ← updatePID_first_paused g first st0 hstop hproxy]
    rfl
  have hL : restart.1.leftPID = doPID g (cleanStart targetLeft (first LEFT) (now LEFT)) := by
    simp only [restart, hpaused]
    simp [updatePID, startMoving, cleanStart]
  have hR : restart.1.rightPID = doPID g (cleanStart targetRight (first RIGHT) (now RIGHT)) := by
    simp only [restart, hpaused]
    simp [updatePID, startMoving, cleanStart]
  have hcmd : restart.2 = some (restart.1.leftPID.OutputSpeed, restart.1.rightPID.OutputSpeed) := by
    simp only [restart, hpaused]
    simp [updatePID, startMoving]
  refine ⟨hL, hR, ?_⟩
  rw [hcmd, hL, hR, doPID_cleanStart_output, doPID_cleanStart_output]

/-- Witness of `restart_after_reset`: the wheels coast from 100 to 140 during
the pause; the restart tick at 141 measures 41 ticks and commands -22. -/
theorem restart_after_reset_witness :
    (updatePID defaultParams (fun _ => 141)
      (startMoving (updatePIDs defaultParams coastingState [fun _ => 100, fun _ => 140]) 10 10)).2
      = some (clampPWM defaultParams (Int.tdiv (20 * (10 - (141 - 100)) - 12 * (141 - 100)) 50),
              clampPWM defaultParams (Int.tdiv (20 * (10 - (141 - 100)) - 12 * (141 - 100)) 50)) ∧
    clampPWM defaultParams (Int.tdiv (20 * (10 - (141 - 100)) - 12 * (141 - 100)) 50) = -22 :=
  ⟨(restart_after_reset defaultParams coastingState (fun _ => 100) [fun _ => 140] (fun _ => 141)
      10 10 rfl (Or.inl (by decide))).2.2,
   by decide⟩

/-- Claim C6 fails as stated, in two ways. (1) Wheels coasting during the
pause: the reset ran at reading 100, the last stopped reading was 140, and the
restart tick at 141 enters `doPID` with `PrevEnc = 100`, measures 41 rather than
`141 - 140 = 1`, and commands -22 where the claimed clean increment is 3.
(2) Wheels stalled when stopped (`PrevInputSpeed == 0` on both motors): no
reset runs, the previous output 200 survives the pause and the restart tick
commands 204 where the claimed clean increment is 4. -/
theorem restart_clean_state_counterexample :
    ((startMoving (updatePIDs defaultParams coastingState [fun _ => 100, fun _ => 140])
        10 10).leftPID.PrevEnc = 100 ∧
     (updatePID defaultParams (fun _ => 141)
        (startMoving (updatePIDs defaultParams coastingState [fun _ => 100, fun _ => 140])
          10 10)).2 = some (-22, -22) ∧
     clampPWM defaultParams
        (Int.tdiv (defaultParams.Kp * (10 - (141 - 140)) - defaultParams.Kd * (141 - 140))
          defaultParams.Ko) = 3) ∧
    ((startMoving (updatePIDs defaultParams stalledState [fun _ => 100])
        10 10).leftPID.OutputSpeed = 200 ∧
     (updatePID defaultParams (fun _ => 100)
        (startMoving (updatePIDs defaultParams stalledState [fun _ => 100]) 10 10)).2
        = some (204, 204) ∧
     clampPWM defaultParams
        (Int.tdiv (defaultParams.Kp * (10 - (100 - 100)) - defaultParams.Kd * (100 - 100))
          defaultParams.Ko) = 4) := by
  refine ⟨⟨?_, ?_, ?_⟩, ?_, ?_, ?_⟩
  · decide
  · simp [updatePID, startMoving, updatePIDs, coastingState, resetPID, doPID, defaultParams,
      toLong, LEFT, RIGHT]
    norm_num
    decide
  · decide
  · decide
  · simp [updatePID, startMoving, updatePIDs, stalledState, resetPID, doPID, defaultParams,
      toLong, LEFT, RIGHT]
    decide
  · decide

/-! ## Debounced events -/

/-- Claim C10, evaluated where the code departs from it. `Process` keeps and
compares times modulo 1000 with unsigned subtraction.
(1) Switch pressed at `t = 990` (Pending starts, `swLastTime = 990`) and released
before `t = 1005`: `5 - 990` wraps to `2^32 - 985 > 50` and the click fires
15 ms after Pending began.
(2) Rotation seen at `t = 900`: at `t = 1000` the right callback fires 100 ms
after Pending began, inside the 160 ms window.
(3) Switch pressed at `t = 100`, next call at `t = 1120`: `120 - 100 = 20`, so an
event Pending for 1020 ms is neither fired nor cleared. -/
theorem debounce_window_modulo_1000 :
    ((KY040.Process printingCallbacks (KY040.construct 10 9 8) 990 0 0 0 990).1.swDebounce = true ∧
     (KY040.Process printingCallbacks (KY040.construct 10 9 8) 990 0 0 0 990).1.swLastTime = 990 ∧
     (KY040.Process printingCallbacks (KY040.construct 10 9 8) 990 0 0 0 990).2 = [] ∧
     (KY040.Process printingCallbacks
        (KY040.Process printingCallbacks (KY040.construct 10 9 8) 990 0 0 0 990).1
        1005 0 0 1 1005).2 = [KY040Event.click] ∧
     1005 - 990 ≤ KY040_SW_DEBOUNCE) ∧
    ((KY040.Process printingCallbacks (KY040.construct 10 9 8) 900 1 0 1 900).1.dtDebounce = true ∧
     (KY040.Process printingCallbacks (KY040.construct 10 9 8) 900 1 0 1 900).1.dtLastTime = 900 ∧
     (KY040.Process printingCallbacks (KY040.construct 10 9 8) 900 1 0 1 900).2 = [] ∧
     (KY040.Process printingCallbacks
        (KY040.Process printingCallbacks (KY040.construct 10 9 8) 900 1 0 1 900).1
        1000 1 0 1 1000).2 = [KY040Event.right] ∧
     1000 - 900 ≤ KY040_DT_DEBOUNCE) ∧
    ((KY040.Process printingCallbacks (KY040.construct 10 9 8) 100 0 0 0 100).1.swDebounce = true ∧
     (KY040.Process printingCallbacks (KY040.construct 10 9 8) 100 0 0 0 100).1.swLastTime = 100 ∧
     (KY040.Process printingCallbacks
        (KY040.Process printingCallbacks (KY040.construct 10 9 8) 100 0 0 0 100).1
        1120 0 0 1 1120).2 = [] ∧
     (KY040.Process printingCallbacks
        (KY040.Process printingCallbacks (KY040.construct 10 9 8) 100 0 0 0 100).1
        1120 0 0 1 1120).1.swDebounce = true ∧
     KY040_SW_DEBOUNCE < 1120 - 100) := by
  decide

/-! ## Debounced switch: what makes a click -/

/-- Members `DecodeSignals` leaves alone. -/
lemma KY040.DecodeSignals_frame (k : KY040) (a b m : Nat) :
    (k.DecodeSignals a b m).swDebounce = k.swDebounce ∧
    (k.DecodeSignals a b m).swLastTime = k.swLastTime ∧
    (k.DecodeSignals a b m).swState = k.swState ∧
    (k.DecodeSignals a b m).dtDebounce = k.dtDebounce ∧
    (k.DecodeSignals a b m).dtLastTime = k.dtLastTime ∧
    (k.DecodeSignals a b m).basicMode = k.basicMode := by
  unfold KY040.DecodeSignals
  simp only []
  split_ifs <;> simp

/-- The last part of `Process`, written over the result of the switch part. -/
lemma KY040.dtStage_tail (cb : KY040Callbacks) (r3 : KY040 × List KY040Event) (t : Nat) :
    (let k4 : KY040 :=
      if r3.1.dtState ≠ 0 ∧ r3.1.dtDebounce = false then
        { r3.1 with dtLastTime := t % 1000, dtDebounce := true }
      else r3.1
     if k4.dtDebounce = true ∧ ulongSub (t % 1000) k4.dtLastTime > KY040_DT_DEBOUNCE then
       let rR := if k4.dtState = 1 then KY040.invoke cb._OnCbRight KY040Event.right k4 else (k4, [])
       let rL := if rR.1.dtState = 2 then KY040.invoke cb._OnCbLeft KY040Event.left rR.1
                 else (rR.1, [])
       (({ rL.1 with dtState := 0, dtDebounce := false } : KY040), r3.2 ++ rR.2 ++ rL.2)
     else (k4, r3.2)) =
    ((KY040.dtStage cb r3.1 t).1, r3.2 ++ (KY040.dtStage cb r3.1 t).2) := by
  unfold KY040.dtStage
  simp only []
  split_ifs <;> simp [List.append_assoc]

/-- `Process` is its three parts in sequence. -/
lemma KY040.Process_stages (cb : KY040Callbacks) (k : KY040) (t a b sw m : Nat) :
    KY040.Process cb k t a b sw m =
      ((KY040.dtStage cb (KY040.swStage cb (k.pollStage a b sw m) t sw).1 t).1,
       (KY040.swStage cb (k.pollStage a b sw m) t sw).2 ++
         (KY040.dtStage cb (KY040.swStage cb (k.pollStage a b sw m) t sw).1 t).2) :=
  KY040.dtStage_tail cb (KY040.swStage cb (k.pollStage a b sw m) t sw) t

/-- Members the polling part of `Process` leaves alone. -/
lemma KY040.pollStage_frame (k : KY040) (a b sw m : Nat) :
    (k.pollStage a b sw m).swDebounce = k.swDebounce ∧
    (k.pollStage a b sw m).swLastTime = k.swLastTime ∧
    (k.pollStage a b sw m).dtDebounce = k.dtDebounce ∧
    (k.pollStage a b sw m).dtLastTime = k.dtLastTime := by
  obtain ⟨d1, d2, _, d4, d5, _⟩ := KY040.DecodeSignals_frame k a b m
  unfold KY040.pollStage
  split_ifs <;> simp [d1, d2, d4, d5]

/-- The switch part of `Process` on a Pending switch. -/
lemma KY040.swStage_pending (cb : KY040Callbacks) (k1 : KY040) (t sw : Nat)
    (h : k1.swDebounce = true) :
    KY040.swStage cb k1 t sw =
      if ulongSub (t % 1000) k1.swLastTime > KY040_SW_DEBOUNCE then
        ({ (if sw = 1 then KY040.invoke cb._OnCbClick KY040Event.click k1 else (k1, [])).1 with
            swState := 0, swDebounce := false },
         (if sw = 1 then KY040.invoke cb._OnCbClick KY040Event.click k1 else (k1, [])).2)
      else (k1, []) := by
  unfold KY040.swStage
  simp [h]

/-- The direction part of `Process` never reports a click. -/
lemma KY040.dtStage_no_click (cb : KY040Callbacks) (k3 : KY040) (t : Nat) :
    (KY040.dtStage cb k3 t).2.count KY040Event.click = 0 := by
  unfold KY040.dtStage KY040.invoke
  simp only []
  cases cb._OnCbRight <;> cases cb._OnCbLeft <;> split_ifs <;> simp

/-- Unsigned subtraction of two stamps taken in the same block of 1000 ms is
the elapsed time. -/
lemma ulongSub_same_block (t t0 : Nat) (hle : t0 ≤ t) (hsame : t / 1000 = t0 / 1000) :
    ulongSub (t % 1000) (t0 % 1000) = t - t0 := by
  unfold ulongSub
  norm_num
  omega

/-- Claim C11, as the code has it. Let the switch be Pending since `Process(t0)`
and let `Process(t)` be called later in the same block of 1000 ms. The call
invokes the click callback exactly when `t - t0 > 50` and `pinSw` reads HIGH
during the call: a press that has reverted to HIGH is what produces the click
(once, when a handler is registered); a call with `t - t0 ≤ 50`, or one at
which the pin still reads LOW, invokes no click callback. -/
theorem click_fires_on_release (cb : KY040Callbacks) (k : KY040) (t a b sw m : Nat)
    (f : KY040 → KY040) (hcb : cb._OnCbClick = some f) (hP : k.swDebounce = true)
    (t0 : Nat) (hstamp : k.swLastTime = t0 % 1000) (hle : t0 ≤ t)
    (hsame : t / 1000 = t0 / 1000) :
    (t - t0 > KY040_SW_DEBOUNCE → sw = 1 →
      (KY040.Process cb k t a b sw m).2.count KY040Event.click = 1) ∧
    (t - t0 > KY040_SW_DEBOUNCE → sw ≠ 1 →
      (KY040.Process cb k t a b sw m).2.count KY040Event.click = 0) ∧
    (t - t0 ≤ KY040_SW_DEBOUNCE →
      (KY040.Process cb k t a b sw m).2.count KY040Event.click = 0) := by
  obtain ⟨p1, p2, _, _⟩ := KY040.pollStage_frame k a b sw m
  have hst := KY040.swStage_pending cb (k.pollStage a b sw m) t sw (by rw [p1]; exact hP)
  rw [p2, hstamp, ulongSub_same_block t t0 hle hsame] at hst
  rw [KY040.Process_stages, List.count_append, KY040.dtStage_no_click, hst]
  refine ⟨?_, ?_, ?_⟩
  · intro h1 h2
    simp [h1, h2, hcb, KY040.invoke]
  · intro h1 h2
    simp [h1, h2]
  · intro h1
    have : ¬ (t - t0 > KY040_SW_DEBOUNCE) := not_lt.mpr h1
    simp [this]

/-- Witness of `click_fires_on_release`: pressed at 100, back HIGH by 110, the
call at 160 clicks. -/
theorem click_fires_on_release_witness :
    (KY040.Process printingCallbacks
      (KY040.Process printingCallbacks
        (KY040.Process printingCallbacks (KY040.construct 10 9 8) 100 0 0 0 100).1
        110 0 0 1 110).1
      160 0 0 1 160).2.count KY040Event.click = 1 :=
  (click_fires_on_release printingCallbacks
    (KY040.Process printingCallbacks
      (KY040.Process printingCallbacks (KY040.construct 10 9 8) 100 0 0 0 100).1
      110 0 0 1 110).1
    160 0 0 1 160 (fun k => k) rfl (by decide) 100 (by decide) (by decide) (by decide)).1
    (by decide) rfl

/-- Claim C11 fails as stated. The pin goes LOW at `t = 100` (the switch enters
Pending), is back HIGH at `t = 110`, ten units later and well inside the
window, and stays HIGH; the call at `t = 160` invokes the click callback. -/
theorem bounce_not_rejected_counterexample :
    (KY040.Process printingCallbacks (KY040.construct 10 9 8) 100 0 0 0 100).1.swDebounce = true ∧
    (KY040.Process printingCallbacks (KY040.construct 10 9 8) 100 0 0 0 100).1.swLastTime = 100 ∧
    110 - 100 < KY040_SW_DEBOUNCE ∧
    (KY040.Process printingCallbacks
      (KY040.Process printingCallbacks (KY040.construct 10 9 8) 100 0 0 0 100).1
      110 0 0 1 110).2 = [] ∧
    (KY040.Process printingCallbacks
      (KY040.Process printingCallbacks
        (KY040.Process printingCallbacks (KY040.construct 10 9 8) 100 0 0 0 100).1
        110 0 0 1 110).1
      160 0 0 1 160).2 = [KY040Event.click] := by
  decide

/-! ## Rates: elapsed-time divisions -/

/-- Claim C12, evaluated where the code departs from it. `DecodeSignals`
divides by `Time - lastTime` with no test: whenever the call falls in the
second already stored in `Time` the divisor is zero (marked by `none`). This
happens at the first call after construction made before `millis() = 1000`,
and at the second of two calls made at 2100 and 2900. -/
theorem DecodeSignals_divides_by_zero :
    (∀ (k : KY040) (a b m : Nat), ((m / 1000 : Nat) : Int) = k.Time →
      (k.DecodeSignals a b m).Time - k.Time = 0 ∧
      (k.DecodeSignals a b m).Vel = none ∧ (k.DecodeSignals a b m).Acc = none) ∧
    (((KY040.construct 10 9 8).DecodeSignals 1 0 100).Time - (KY040.construct 10 9 8).Time = 0 ∧
     ((KY040.construct 10 9 8).DecodeSignals 1 0 100).Vel = none ∧
     ((KY040.construct 10 9 8).DecodeSignals 1 0 100).Acc = none) ∧
    ((((KY040.construct 10 9 8).DecodeSignals 1 0 2100).DecodeSignals 1 1 2900).Time
        - ((KY040.construct 10 9 8).DecodeSignals 1 0 2100).Time = 0 ∧
     ((KY040.construct 10 9 8).DecodeSignals 1 0 2100).Vel = some 0 ∧
     (((KY040.construct 10 9 8).DecodeSignals 1 0 2100).DecodeSignals 1 1 2900).Vel = none ∧
     (((KY040.construct 10 9 8).DecodeSignals 1 0 2100).DecodeSignals 1 1 2900).Acc = none) := by
  refine ⟨?_, by decide, by decide⟩
  intro k a b m h
  unfold KY040.DecodeSignals
  simp only []
  split_ifs <;> simp [KY040.quot, h]

/-- The parts of `getVelocity` that hold on every input: the division is made
only for a non-zero elapsed time, the stored velocity is returned unchanged
otherwise, and the clock and the position are recorded. -/
lemma RotaryEncoder.getVelocity_guard (s : RotaryEncoder) (m : Nat) :
    (ulongSub m s._lastVelocityTime = 0 → (s.getVelocity m).1 = s._lastVelocity) ∧
    (ulongSub m s._lastVelocityTime > 0 →
      (s.getVelocity m).1 =
        ofULong (toULong ((s.getPosition - s._lastPosition) * 1000)
          / ulongSub m s._lastVelocityTime)) ∧
    (s.getVelocity m).2._lastVelocityTime = m ∧
    (s.getVelocity m).2._lastPosition = s.getPosition ∧
    (s.getVelocity m).2._position = s._position ∧
    (s.getVelocity m).2._lastVelocity = (s.getVelocity m).1 ∧
    (s.getVelocity m).2._lastAccelerationTime = s._lastAccelerationTime := by
  unfold RotaryEncoder.getVelocity
  simp only []
  refine ⟨?_, ?_, ?_, ?_, ?_, ?_, ?_⟩
  · intro h
    simp [h]
  · intro h
    simp [h]
  all_goals first
    | trivial
    | (split_ifs <;> rfl)

/-- Claim C13, evaluated where the code departs from it. The quotient is taken
in `unsigned long`: with the position one step lower than at the last sample
and 2 ms elapsed, `getVelocity` returns 2147483148, where
`((getPosition() - _lastPosition) * 1000) / timeDiff` is `-1000 / 2 = -500`. -/
theorem getVelocity_negative_difference :
    ulongSub 2 ({ RotaryEncoder.zeroed with _lastPosition := 1 } : RotaryEncoder)._lastVelocityTime
      = 2 ∧
    (({ RotaryEncoder.zeroed with _lastPosition := 1 } : RotaryEncoder).getPosition
      - ({ RotaryEncoder.zeroed with _lastPosition := 1 } : RotaryEncoder)._lastPosition) * 1000
      = -1000 ∧
    Int.tdiv (-1000) 2 = -500 ∧
    (({ RotaryEncoder.zeroed with _lastPosition := 1 } : RotaryEncoder).getVelocity 2).1
      = 2147483148 := by
  decide

/-- Claim C14, evaluated where the code departs from it. `getAcceleration`
takes the velocity difference after its `getVelocity` call has already stored
the new velocity in `_lastVelocity`, so the difference is always 0: for every
object and every non-zero elapsed time the result is 0. Example: previous
velocity 0, velocity computed in this call 5, elapsed 1000 ms; the first
difference is `(5 - 0) * 1000 / 1000 = 5` and the call returns 0. -/
theorem getAcceleration_always_zero :
    (∀ (s : RotaryEncoder) (m mv : Nat), ulongSub m s._lastAccelerationTime > 0 →
      (s.getAcceleration m mv).1 = 0) ∧
    (({ RotaryEncoder.zeroed with _position := 5 } : RotaryEncoder)._lastVelocity = 0 ∧
     (({ RotaryEncoder.zeroed with _position := 5 } : RotaryEncoder).getVelocity 1000).1 = 5 ∧
     Int.tdiv ((5 - 0) * 1000) 1000 = 5 ∧
     (({ RotaryEncoder.zeroed with _position := 5 } : RotaryEncoder).getAcceleration 1000 1000).1
       = 0) := by
  refine ⟨?_, by decide⟩
  intro s m mv h
  obtain ⟨_, _, _, _, _, g6, g7⟩ := RotaryEncoder.getVelocity_guard s mv
  unfold RotaryEncoder.getAcceleration
  simp only [g6, g7, sub_self, zero_mul]
  rw [if_pos h]
  simp [toULong, ofULong]

/-! ## PID controller: ticks while stopped -/

/-- Claim C15. With `moving == 0`, `updatePID` issues no motor command and runs
no `doPID`: if some motor has `PrevInputSpeed != 0` both motors end with target
0, `Position == PrevEnc ==` that motor's encoder reading and `OutputSpeed`,
`PrevInputSpeed`, `ITerm` all 0; otherwise only the two `Position` fields
change, to the encoder readings. -/
theorem updatePID_while_stopped (g : PIDParams) (e : Nat → Int) (st : PIDState)
    (hstop : st.moving = 0) :
    (updatePID g e st).2 = none ∧
    ((st.leftPID.PrevInputSpeed ≠ 0 ∨ st.rightPID.PrevInputSpeed ≠ 0) →
      (updatePID g e st).1 =
        { leftPID := { TargetStepsPerTimeFrame := 0, Position := e LEFT, PrevEnc := e LEFT,
                       PrevInputSpeed := 0, ITerm := 0, OutputSpeed := 0 }
          rightPID := { TargetStepsPerTimeFrame := 0, Position := e RIGHT, PrevEnc := e RIGHT,
                        PrevInputSpeed := 0, ITerm := 0, OutputSpeed := 0 }
          moving := st.moving }) ∧
    (¬ (st.leftPID.PrevInputSpeed ≠ 0 ∨ st.rightPID.PrevInputSpeed ≠ 0) →
      (updatePID g e st).1 =
        { st with
          leftPID := { st.leftPID with Position := e LEFT }
          rightPID := { st.rightPID with Position := e RIGHT } }) := by
  refine ⟨?_, ?_, ?_⟩
  · unfold updatePID
    simp only [hstop, if_true]
    split_ifs <;> rfl
  · intro hp
    rw [updatePID_first_paused g e st hstop hp, hstop]
  · intro hp
    unfold updatePID
    simp only [hstop, if_true]
    rw [if_neg hp]

/-- Witness of `updatePID_while_stopped`: the coasting example is reset at the
readings 100 and 70 and no command is issued. -/
theorem updatePID_while_stopped_witness :
    (updatePID defaultParams (fun i => if i = LEFT then 100 else 70) coastingState).2 = none ∧
    (updatePID defaultParams (fun i => if i = LEFT then 100 else 70) coastingState).1 =
      { leftPID := { TargetStepsPerTimeFrame := 0, Position := 100, PrevEnc := 100,
                     PrevInputSpeed := 0, ITerm := 0, OutputSpeed := 0 }
        rightPID := { TargetStepsPerTimeFrame := 0, Position := 70, PrevEnc := 70,
                      PrevInputSpeed := 0, ITerm := 0, OutputSpeed := 0 }
        moving := 0 } :=
  ⟨(updatePID_while_stopped defaultParams (fun i => if i = LEFT then 100 else 70)
      coastingState rfl).1,
   (updatePID_while_stopped defaultParams (fun i => if i = LEFT then 100 else 70)
      coastingState rfl).2.1 (Or.inl (by decide))⟩

/-! ## Polled decoder: the latch rule -/

/-- Claim C16. A tick whose sampled state equals `_oldState` changes nothing; a
tick into a state that is not a latch state of the mode changes only
`_positionInt` and `_oldState`; a tick into a latch state (3 in FOUR3, 0 in
FOUR0, 0 or 3 in TWO03) also sets `_position` to the new `_positionInt`
shifted right arithmetically by 2 (FOUR modes) or 1 (TWO03) and moves the
timestamps. So `_position`, `_positionTime` or `_lastPositionTime` change only
on a tick that samples a new state which is a latch state. -/
theorem tick_latch_rule (s : RotaryEncoder) (sig1 sig2 millis : Nat) :
    let c := sig1 ||| (sig2 <<< 1)
    let raw := s._positionInt + KNOBDIR.getD (c ||| (s._oldState <<< 2)) 0
    (c = s._oldState → s.tick sig1 sig2 millis = s) ∧
    (c ≠ s._oldState → ¬ isLatchState s._mode c →
      s.tick sig1 sig2 millis = { s with _positionInt := raw, _oldState := c }) ∧
    (c ≠ s._oldState → isLatchState s._mode c →
      s.tick sig1 sig2 millis =
        { s with
          _positionInt := raw
          _oldState := c
          _position := raw >>> latchShift s._mode
          _lastPositionTime := s._positionTime
          _positionTime := millis }) ∧
    (((s.tick sig1 sig2 millis)._position ≠ s._position ∨
      (s.tick sig1 sig2 millis)._positionTime ≠ s._positionTime ∨
      (s.tick sig1 sig2 millis)._lastPositionTime ≠ s._lastPositionTime) →
      c ≠ s._oldState ∧ isLatchState s._mode c) := by
  intro c raw
  have h1 : c = s._oldState → s.tick sig1 sig2 millis = s := by
    intro h
    unfold RotaryEncoder.tick
    simp only []
    rw [if_neg (by simpa [c] using h.symm)]
  have h2 : c ≠ s._oldState → ¬ isLatchState s._mode c →
      s.tick sig1 sig2 millis = { s with _positionInt := raw, _oldState := c } := by
    intro hne hl
    unfold RotaryEncoder.tick
    simp only []
    rw [if_pos (by simpa [c] using Ne.symm hne)]
    cases hm : s._mode <;> rw [hm] at hl <;> simp only [isLatchState, c] at hl <;>
      simp [hl, raw, c]
  have h3 : c ≠ s._oldState → isLatchState s._mode c →
      s.tick sig1 sig2 millis =
        { s with
          _positionInt := raw
          _oldState := c
          _position := raw >>> latchShift s._mode
          _lastPositionTime := s._positionTime
          _positionTime := millis } := by
    intro hne hl
    unfold RotaryEncoder.tick
    simp only []
    rw [if_pos (by simpa [c] using Ne.symm hne)]
    cases hm : s._mode <;> rw [hm] at hl <;> simp only [isLatchState, c] at hl <;>
      simp [hl, raw, c, latchShift]
  refine ⟨h1, h2, h3, ?_⟩
  intro hch
  by_cases hc : c = s._oldState
  · rw [h1 hc] at hch
    simp at hch
  · by_cases hl : isLatchState s._mode c
    · exact ⟨hc, hl⟩
    · rw [h2 hc hl] at hch
      simp at hch

/-- Witness of `tick_latch_rule`: in FOUR3 mode the tick 2 → 3 latches, the
tick 3 → 1 does not. -/
theorem tick_latch_rule_witness :
    ((RotaryEncoder.construct RotaryEncoder.zeroed 2 3 LatchMode.FOUR3 0 1).tick 1 1 9)
      = { RotaryEncoder.construct RotaryEncoder.zeroed 2 3 LatchMode.FOUR3 0 1 with
          _positionInt := 1, _oldState := 3, _position := 0, _lastPositionTime := 0,
          _positionTime := 9 } ∧
    ((RotaryEncoder.construct RotaryEncoder.zeroed 2 3 LatchMode.FOUR3 1 1).tick 1 0 9)
      = { RotaryEncoder.construct RotaryEncoder.zeroed 2 3 LatchMode.FOUR3 1 1 with
          _positionInt := 1, _oldState := 1 } :=
  ⟨(tick_latch_rule (RotaryEncoder.construct RotaryEncoder.zeroed 2 3 LatchMode.FOUR3 0 1)
      1 1 9).2.2.1 (by decide) (by decide),
   (tick_latch_rule (RotaryEncoder.construct RotaryEncoder.zeroed 2 3 LatchMode.FOUR3 1 1)
      1 0 9).2.1 (by decide) (by decide)⟩

/-! ## Polled decoder: phase invariant -/

/-- One tick along a walk: raw step, new state, mode, latch invariant, phase. -/
lemma tick_walk_step (s : RotaryEncoder) (x : Nat × Nat) (h : s._oldState < 4)
    (hv : singleBitOrRepeat s._oldState x.1) :
    (s.tick (x.1 % 2) (x.1 / 2) x.2)._positionInt = s._positionInt + netSteps s._oldState [x] ∧
    (s.tick (x.1 % 2) (x.1 / 2) x.2)._oldState = x.1 ∧
    (s.tick (x.1 % 2) (x.1 / 2) x.2)._mode = s._mode ∧
    (latchInv s → latchInv (s.tick (x.1 % 2) (x.1 / 2) x.2)) ∧
    ((s.tick (x.1 % 2) (x.1 / 2) x.2)._positionInt - (upPhase x.1 : Int)) % 4
      = (s._positionInt - (upPhase s._oldState : Int)) % 4 := by
  obtain ⟨c, t⟩ := x
  obtain ⟨hc, hvalid⟩ := hv
  simp only at hc hvalid ⊢
  interval_cases hp : s._oldState <;> interval_cases c <;> simp at hvalid <;>
    simp [RotaryEncoder.tick, KNOBDIR, hp, LATCH0, LATCH3, netSteps, stepUp, stepDown,
      upPhase, latchInv] <;>
    cases hm : s._mode <;> simp [isLatchState, latchShift, LATCH0, LATCH3] <;> omega

lemma netSteps_cons (c : Nat) (x : Nat × Nat) (xs : List (Nat × Nat)) :
    netSteps c (x :: xs) = netSteps c [x] + netSteps x.1 xs := by
  simp [netSteps]

/-- A run of ticks along a walk: raw accumulator, end state, mode, latch
invariant and phase. -/
lemma ticks_walk (l : List (Nat × Nat)) :
    ∀ s : RotaryEncoder, s._oldState < 4 → validWalk s._oldState l →
      (s.ticks (walkSamples l))._positionInt = s._positionInt + netSteps s._oldState l ∧
      (s.ticks (walkSamples l))._oldState = walkEnd s._oldState l ∧
      (s.ticks (walkSamples l))._oldState < 4 ∧
      (s.ticks (walkSamples l))._mode = s._mode ∧
      (latchInv s → latchInv (s.ticks (walkSamples l))) ∧
      ((s.ticks (walkSamples l))._positionInt
          - (upPhase (s.ticks (walkSamples l))._oldState : Int)) % 4
        = (s._positionInt - (upPhase s._oldState : Int)) % 4 := by
  induction l with
  | nil =>
    intro s h _
    simp [walkSamples, RotaryEncoder.ticks, netSteps, walkEnd, h]
  | cons x xs ih =>
    intro s h hv
    obtain ⟨hv1, hv2⟩ := hv
    obtain ⟨t1, t2, t3, t4, t5⟩ := tick_walk_step s x h hv1
    have hrun : s.ticks (walkSamples (x :: xs))
        = (s.tick (x.1 % 2) (x.1 / 2) x.2).ticks (walkSamples xs) := rfl
    have hlt : (s.tick (x.1 % 2) (x.1 / 2) x.2)._oldState < 4 := by
      rw [t2]; exact hv1.1
    obtain ⟨i1, i2, i3, i4, i5, i6⟩ := ih (s.tick (x.1 % 2) (x.1 / 2) x.2) hlt
      (by rw [t2]; exact hv2)
    rw [hrun]
    refine ⟨?_, ?_, i3, ?_, fun hi => i5 (t4 hi), ?_⟩
    · rw [i1, t1, t2, netSteps_cons s._oldState x xs]
      ring
    · rw [i2, t2]
      rfl
    · rw [i4, t3]
    · rw [i6, t2, t5]

/-- Claim C17. For an encoder constructed in state 3 and ticked along any
sequence of states in which each one repeats its predecessor or differs from
it in one bit: `_positionInt mod 4` is given by the current state (3 → 0,
1 → 1, 0 → 2, 2 → 3) and `_positionInt` is the net number of raw steps; so
whenever the state is 3 the accumulator is 4 times the net number of completed
cycles; and in FOUR3 mode an excursion from state 3 back to state 3 with no
net cycle (net raw steps 0) leaves `getPosition` as it was. -/
theorem phase_invariant (mem : RotaryEncoder) (pin1 pin2 : Nat) (mode : LatchMode)
    (l : List (Nat × Nat)) (hv : validWalk 3 l) :
    let s := (RotaryEncoder.construct mem pin1 pin2 mode 1 1).ticks (walkSamples l)
    s._positionInt % 4 = (upPhase s._oldState : Int) ∧
    s._positionInt = netSteps 3 l ∧
    (s._oldState = 3 → s._positionInt = 4 * (netSteps 3 l / 4)) ∧
    (mode = LatchMode.FOUR3 → s._oldState = 3 →
      ∀ e : List (Nat × Nat), validWalk 3 e → walkEnd 3 e = 3 → netSteps 3 e = 0 →
        (s.ticks (walkSamples e)).getPosition = s.getPosition) := by
  intro s
  have c1 : (RotaryEncoder.construct mem pin1 pin2 mode 1 1)._oldState = 3 := by
    simp [RotaryEncoder.construct]
  have c2 : (RotaryEncoder.construct mem pin1 pin2 mode 1 1)._positionInt = 0 := rfl
  have c3 : (RotaryEncoder.construct mem pin1 pin2 mode 1 1)._position = 0 := rfl
  have c4 : (RotaryEncoder.construct mem pin1 pin2 mode 1 1)._mode = mode := rfl
  have hinv0 : latchInv (RotaryEncoder.construct mem pin1 pin2 mode 1 1) := by
    intro _
    rw [c2, c3]
    simp [Int.shiftRight_eq_div_pow]
  obtain ⟨r1, r2, r3, r4, r5, r6⟩ := ticks_walk l (RotaryEncoder.construct mem pin1 pin2 mode 1 1)
    (by rw [c1]; decide) (by rw [c1]; exact hv)
  rw [c1] at r1 r2 r6
  rw [c2] at r1 r6
  rw [c4] at r4
  have hph : upPhase s._oldState < 4 := by
    have : s._oldState < 4 := r3
    interval_cases s._oldState <;> simp [upPhase]
  have hmod : s._positionInt % 4 = (upPhase s._oldState : Int) := by
    have := r6
    simp only [upPhase] at this
    change (s._positionInt - (upPhase s._oldState : Int)) % 4 = _ at this
    omega
  have hraw : s._positionInt = netSteps 3 l := by
    have := r1
    change s._positionInt = _ at this
    rw [this]
    ring
  refine ⟨hmod, hraw, ?_, ?_⟩
  · intro h3
    rw [h3] at hmod
    simp only [upPhase] at hmod
    rw [← hraw]
    omega
  · intro hm h3 e he hend hnet
    have hinv : latchInv s := r5 hinv0
    have hs3 : s._oldState < 4 := r3
    obtain ⟨e1, e2, _, e4, e5, _⟩ := ticks_walk e s hs3 (by rw [h3]; exact he)
    rw [h3] at e1 e2
    rw [hnet] at e1
    rw [hend] at e2
    have hmode : s._mode = LatchMode.FOUR3 := by
      change s._mode = _
      rw [← hm]
      exact r4
    have hp1 := hinv (by rw [hmode, h3]; simp [isLatchState, LATCH3])
    have hp2 := e5 hinv (by rw [e4, hmode, e2]; simp [isLatchState, LATCH3])
    unfold RotaryEncoder.getPosition
    rw [hp2, hp1, e1, e4, add_zero]

/-- Witness of `phase_invariant`: after one full cycle up (3, 1, 0, 2, 3) the
excursions 3, 1, 3 and 3, 1, 0, 1, 3 leave the position at 1. -/
theorem phase_invariant_witness :
    (((RotaryEncoder.construct RotaryEncoder.zeroed 2 3 LatchMode.FOUR3 1 1).ticks
        (walkSamples [(1, 10), (0, 20), (2, 30), (3, 40)])).ticks
        (walkSamples [(1, 50), (3, 60)])).getPosition
      = ((RotaryEncoder.construct RotaryEncoder.zeroed 2 3 LatchMode.FOUR3 1 1).ticks
        (walkSamples [(1, 10), (0, 20), (2, 30), (3, 40)])).getPosition ∧
    (((RotaryEncoder.construct RotaryEncoder.zeroed 2 3 LatchMode.FOUR3 1 1).ticks
        (walkSamples [(1, 10), (0, 20), (2, 30), (3, 40)])).ticks
        (walkSamples [(1, 50), (0, 60), (1, 70), (3, 80)])).getPosition
      = ((RotaryEncoder.construct RotaryEncoder.zeroed 2 3 LatchMode.FOUR3 1 1).ticks
        (walkSamples [(1, 10), (0, 20), (2, 30), (3, 40)])).getPosition ∧
    ((RotaryEncoder.construct RotaryEncoder.zeroed 2 3 LatchMode.FOUR3 1 1).ticks
        (walkSamples [(1, 10), (0, 20), (2, 30), (3, 40)])).getPosition = 1 :=
  ⟨(phase_invariant RotaryEncoder.zeroed 2 3 LatchMode.FOUR3
      [(1, 10), (0, 20), (2, 30), (3, 40)]
      (by simp [validWalk, singleBitOrRepeat])).2.2.2 rfl (by decide)
      [(1, 50), (3, 60)] (by simp [validWalk, singleBitOrRepeat]) (by decide) (by decide),
   (phase_invariant RotaryEncoder.zeroed 2 3 LatchMode.FOUR3
      [(1, 10), (0, 20), (2, 30), (3, 40)]
      (by simp [validWalk, singleBitOrRepeat])).2.2.2 rfl (by decide)
      [(1, 50), (0, 60), (1, 70), (3, 80)] (by simp [validWalk, singleBitOrRepeat])
      (by decide) (by decide),
   by decide⟩

/-! ## Debounce timers: written once per episode -/

/-- The switch part of `Process`: what it does to the two start timestamps and
to the direction flag, when the handlers keep the debounce members. -/
lemma KY040.swStage_frame (cb : KY040Callbacks) (k1 : KY040) (t sw : Nat)
    (hcb : callbacksKeepDebounce cb) :
    (KY040.swStage cb k1 t sw).1.swLastTime
      = (if k1.swState ≠ 0 ∧ k1.swDebounce = false then t % 1000 else k1.swLastTime) ∧
    (KY040.swStage cb k1 t sw).1.dtLastTime = k1.dtLastTime ∧
    (KY040.swStage cb k1 t sw).1.dtDebounce = k1.dtDebounce := by
  unfold KY040.swStage KY040.invoke
  simp only []
  cases hc : cb._OnCbClick with
  | none => split_ifs <;> simp
  | some f =>
    have hf := hcb.1 f hc
    split_ifs <;> simp [(hf _).1, (hf _).2.1, (hf _).2.2.2]

/-- The direction part of `Process`: what it does to the two start timestamps,
when the handlers keep the debounce members. -/
lemma KY040.dtStage_frame (cb : KY040Callbacks) (k3 : KY040) (t : Nat)
    (hcb : callbacksKeepDebounce cb) :
    (KY040.dtStage cb k3 t).1.dtLastTime
      = (if k3.dtState ≠ 0 ∧ k3.dtDebounce = false then t % 1000 else k3.dtLastTime) ∧
    (KY040.dtStage cb k3 t).1.swLastTime = k3.swLastTime := by
  unfold KY040.dtStage KY040.invoke
  simp only []
  cases hr : cb._OnCbRight with
  | none =>
    cases hl : cb._OnCbLeft with
    | none => split_ifs <;> simp
    | some fl =>
      have hfl := hcb.2.2 fl hl
      split_ifs <;> simp [(hfl _).1, (hfl _).2.1]
  | some fr =>
    have hfr := hcb.2.1 fr hr
    cases hl : cb._OnCbLeft with
    | none => split_ifs <;> simp [(hfr _).1, (hfr _).2.1]
    | some fl =>
      have hfl := hcb.2.2 fl hl
      split_ifs <;> simp [(hfr _).1, (hfr _).2.1, (hfl _).1, (hfl _).2.1]

/-- The start timestamps after a whole `Process` call. -/
lemma KY040.Process_timestamps (cb : KY040Callbacks) (k : KY040) (t a b sw m : Nat)
    (hcb : callbacksKeepDebounce cb) :
    (KY040.Process cb k t a b sw m).1.swLastTime
      = (if (k.pollStage a b sw m).swState ≠ 0 ∧ k.swDebounce = false then t % 1000
         else k.swLastTime) ∧
    (KY040.Process cb k t a b sw m).1.dtLastTime
      = (if (KY040.swStage cb (k.pollStage a b sw m) t sw).1.dtState ≠ 0 ∧ k.dtDebounce = false
         then t % 1000 else k.dtLastTime) := by
  obtain ⟨p1, p2, p3, p4⟩ := KY040.pollStage_frame k a b sw m
  obtain ⟨s1, s2, s3⟩ := KY040.swStage_frame cb (k.pollStage a b sw m) t sw hcb
  obtain ⟨d1, d2⟩ := KY040.dtStage_frame cb (KY040.swStage cb (k.pollStage a b sw m) t sw).1 t hcb
  rw [KY040.Process_stages]
  simp only []
  rw [d1, d2, s1, s2, s3, p1, p2, p3, p4]
  exact ⟨rfl, rfl⟩

/-- The handlers defined in the file write none of the debounce members. -/
lemma ownCallbacks_keepDebounce (now : Nat) : callbacksKeepDebounce (ownCallbacks now) := by
  refine ⟨?_, ?_, ?_⟩ <;> intro f hf <;> simp [ownCallbacks] at hf <;> subst hf <;> intro k <;>
    simp [KY040.OnButtonClicked_cb, KY040.OnButtonRight_cb, KY040.OnButtonLeft_cb]

/-- Claim C18. With handlers that do not write the debounce members (those of
the file are such): while the switch is Pending no `Process` call and no
`HandleSwitchInterrupt` call changes `swLastTime`; while the direction is
Pending no `Process` call and no `DecodeSignals` call changes `dtLastTime`;
and a `Process` call that does change a start timestamp found that event Idle
and writes `t % 1000`. The two interrupt-side methods never write either
timestamp. -/
theorem debounce_timer_commit_once (cb : KY040Callbacks) (k : KY040) (t a b sw m : Nat)
    (hcb : callbacksKeepDebounce cb) :
    (k.swDebounce = true → (KY040.Process cb k t a b sw m).1.swLastTime = k.swLastTime) ∧
    (k.dtDebounce = true → (KY040.Process cb k t a b sw m).1.dtLastTime = k.dtLastTime) ∧
    k.HandleSwitchInterrupt.swLastTime = k.swLastTime ∧
    (k.DecodeSignals a b m).dtLastTime = k.dtLastTime ∧
    (k.HandleRotateInterrupt a b m).dtLastTime = k.dtLastTime ∧
    ((KY040.Process cb k t a b sw m).1.swLastTime ≠ k.swLastTime →
      k.swDebounce = false ∧ (KY040.Process cb k t a b sw m).1.swLastTime = t % 1000) ∧
    ((KY040.Process cb k t a b sw m).1.dtLastTime ≠ k.dtLastTime →
      k.dtDebounce = false ∧ (KY040.Process cb k t a b sw m).1.dtLastTime = t % 1000) := by
  obtain ⟨h1, h2⟩ := KY040.Process_timestamps cb k t a b sw m hcb
  obtain ⟨_, _, _, _, f5, _⟩ := KY040.DecodeSignals_frame k a b m
  refine ⟨?_, ?_, rfl, f5, f5, ?_, ?_⟩
  · intro hp
    rw [h1]
    simp [hp]
  · intro hp
    rw [h2]
    simp [hp]
  · intro hne
    rw [h1] at hne ⊢
    split_ifs at hne ⊢ with hc
    · exact ⟨hc.2, rfl⟩
    · exact absurd rfl hne
  · intro hne
    rw [h2] at hne ⊢
    split_ifs at hne ⊢ with hc
    · exact ⟨hc.2, rfl⟩
    · exact absurd rfl hne

/-- Witness of `debounce_timer_commit_once`: the switch is Pending since 100; a
further press seen at 120 leaves `swLastTime` at 100. -/
theorem debounce_timer_commit_once_witness :
    (KY040.Process (ownCallbacks 120)
      (KY040.Process (ownCallbacks 100) (KY040.construct 10 9 8) 100 0 0 0 100).1
      120 0 0 0 120).1.swLastTime
      = (KY040.Process (ownCallbacks 100) (KY040.construct 10 9 8) 100 0 0 0 100).1.swLastTime ∧
    (KY040.Process (ownCallbacks 100) (KY040.construct 10 9 8) 100 0 0 0 100).1.swLastTime = 100 :=
  ⟨(debounce_timer_commit_once (ownCallbacks 120)
      (KY040.Process (ownCallbacks 100) (KY040.construct 10 9 8) 100 0 0 0 100).1
      120 0 0 0 120 (ownCallbacks_keepDebounce 120)).1 (by decide),
   by decide⟩

/-! ## The two decoders compared -/

/-- Claim C19, as the code has it. With line A on `pinClk` / `pin1` and line B
on `pinDt` / `pin2`, for each of the 16 transition keys the step
`DecodeSignals` applies to `Pos` is the negative of the step `KNOBDIR[key]`
that `tick` applies to `_positionInt`: same magnitude, opposite direction, and
equal exactly where the step is 0. -/
theorem decoders_count_opposite (p c : Nat) (hp : p < 4) (hc : c < 4)
    (s : RotaryEncoder) (k : KY040) (hs : s._oldState = p) (hk : k.signalAB = p)
    (now : Nat) :
    (k.DecodeSignals (c % 2) (c / 2) now).Pos - k.Pos
      = -((s.tick (c % 2) (c / 2) now)._positionInt - s._positionInt) ∧
    (s.tick (c % 2) (c / 2) now)._positionInt - s._positionInt
      = KNOBDIR.getD ((p <<< 2) ||| c) 0 ∧
    ((k.DecodeSignals (c % 2) (c / 2) now).Pos - k.Pos
        = (s.tick (c % 2) (c / 2) now)._positionInt - s._positionInt ↔
      KNOBDIR.getD ((p <<< 2) ||| c) 0 = 0) := by
  subst hs
  interval_cases hp' : s._oldState <;> interval_cases c <;>
    simp [RotaryEncoder.tick, KY040.DecodeSignals, KNOBDIR, hp', hk, LATCH0, LATCH3] <;>
    cases s._mode <;> simp

/-- Witness of `decoders_count_opposite`: on the transition 0 → 1 (key 1) the
interrupt decoder steps +1 and the polled decoder -1. -/
theorem decoders_count_opposite_witness :
    ((KY040.construct 10 9 8).DecodeSignals 1 0 7).Pos - (KY040.construct 10 9 8).Pos
      = -(((RotaryEncoder.construct RotaryEncoder.zeroed 2 3 LatchMode.FOUR3 0 0).tick 1 0 7)._positionInt
          - (RotaryEncoder.construct RotaryEncoder.zeroed 2 3 LatchMode.FOUR3 0 0)._positionInt) :=
  (decoders_count_opposite 0 1 (by decide) (by decide)
    (RotaryEncoder.construct RotaryEncoder.zeroed 2 3 LatchMode.FOUR3 0 0)
    (KY040.construct 10 9 8) rfl rfl 7).1

/-- Claim C19 fails as stated. Both decoders start in state 0 and sample A
high, B low (state 1, key `0b0001`): `DecodeSignals` adds 1 to `Pos`, `tick`
adds `KNOBDIR[1] = -1` to `_positionInt`. -/
theorem decoders_identical_counterexample :
    (KY040.construct 10 9 8).signalAB = 0 ∧
    (RotaryEncoder.construct RotaryEncoder.zeroed 2 3 LatchMode.FOUR3 0 0)._oldState = 0 ∧
    ((KY040.construct 10 9 8).DecodeSignals 1 0 7).Pos - (KY040.construct 10 9 8).Pos = 1 ∧
    KNOBDIR.getD ((0 <<< 2) ||| 1) 0 = -1 ∧
    ((RotaryEncoder.construct RotaryEncoder.zeroed 2 3 LatchMode.FOUR3 0 0).tick 1 0 7)._positionInt
      - (RotaryEncoder.construct RotaryEncoder.zeroed 2 3 LatchMode.FOUR3 0 0)._positionInt = -1 := by
  decide

/-! ## Polled decoder: velocity and direction share `_lastPosition` -/

/-- The position members after `getAcceleration` are those its `getVelocity`
call leaves. -/
lemma RotaryEncoder.getAcceleration_frame (s : RotaryEncoder) (m mv : Nat) :
    (s.getAcceleration m mv).2._position = (s.getVelocity mv).2._position ∧
    (s.getAcceleration m mv).2._lastPosition = (s.getVelocity mv).2._lastPosition := by
  unfold RotaryEncoder.getAcceleration
  simp only []
  split_ifs <;> exact ⟨rfl, rfl⟩

/-- Claim C20. A `getDirection` call made right after `getVelocity` or
`getAcceleration` returns NOROTATION whatever the object was, and a
`getVelocity` call made right after `getDirection` with a non-zero elapsed
time returns 0. -/
theorem getVelocity_consumes_direction (s : RotaryEncoder) (m mv : Nat) :
    (s.getVelocity m).2.getDirection.1 = Direction.NOROTATION ∧
    (s.getAcceleration m mv).2.getDirection.1 = Direction.NOROTATION ∧
    (ulongSub m s.getDirection.2._lastVelocityTime > 0 →
      s.getDirection.2.getPosition - s.getDirection.2._lastPosition = 0 ∧
      (s.getDirection.2.getVelocity m).1 = 0) := by
  refine ⟨?_, ?_, ?_⟩
  · obtain ⟨_, _, _, g4, g5, _, _⟩ := RotaryEncoder.getVelocity_guard s m
    apply RotaryEncoder.getDirection_of_eq
    rw [g4, g5]
    rfl
  · obtain ⟨_, _, _, g4, g5, _, _⟩ := RotaryEncoder.getVelocity_guard s mv
    obtain ⟨a1, a2⟩ := RotaryEncoder.getAcceleration_frame s m mv
    apply RotaryEncoder.getDirection_of_eq
    rw [a1, a2, g4, g5]
    rfl
  · intro h
    have hd : s.getDirection.2.getPosition - s.getDirection.2._lastPosition = 0 := by
      rw [RotaryEncoder.getDirection_snd]
      simp [RotaryEncoder.getPosition]
    refine ⟨hd, ?_⟩
    rw [(RotaryEncoder.getVelocity_guard s.getDirection.2 m).2.1 h, hd]
    simp [toULong, ofULong]

/-- Witness of `getVelocity_consumes_direction`: the position moved from 0 to 1,
so `getDirection` alone reports CLOCKWISE; after `getVelocity` it reports
NOROTATION, and `getVelocity` after `getDirection` returns 0. -/
theorem getVelocity_consumes_direction_witness :
    ({ RotaryEncoder.zeroed with _position := 1 } : RotaryEncoder).getDirection.1
      = Direction.CLOCKWISE ∧
    (({ RotaryEncoder.zeroed with _position := 1 } : RotaryEncoder).getVelocity 50).2.getDirection.1
      = Direction.NOROTATION ∧
    (({ RotaryEncoder.zeroed with _position := 1 } : RotaryEncoder).getDirection.2.getVelocity 50).1
      = 0 :=
  ⟨by decide,
   (getVelocity_consumes_direction ({ RotaryEncoder.zeroed with _position := 1 } : RotaryEncoder)
      50 50).1,
   ((getVelocity_consumes_direction ({ RotaryEncoder.zeroed with _position := 1 } : RotaryEncoder)
      50 50).2.2 (by decide)).2⟩
